import Mathlib

/-!
# TrainerApp: the local data layer of the coaching application

A shallow embedding of `src/database/db.js` (the SQLite data access layer) and of the
form handlers that feed it.  Every table is the list of its rows in rowid order, a write
is a function from a database to a database, a read is a function from a database to the
list of rows the SQL statement selects.

Modelling conventions
* `NULL` is `none`; a column declared `NOT NULL` has a plain (non-optional) type.
* `CURRENT_TIMESTAMP` is the argument `now` of every insert.
* Text is compared with SQLite's default `BINARY` collation, which on UTF-8 text is the
  code point order of `String`.
* `ORDER BY` is a stable insertion sort of the selected rows (SQL leaves the order of
  ties open; the model fixes it to scan order).
* Foreign keys are declared in the schema but never switched on (`PRAGMA foreign_keys`
  is not issued anywhere), so no write is rejected on their account.
* `attendance.date` and `payments.payment_date` hold date texts such as `2024-03-01`; these
  are not numeric literals, so SQLite stores and compares them as text although the
  columns are declared `DATE` / `DATETIME`.
* A JavaScript number is a `JsNumber`: finite values are exact rationals (IEEE rounding
  is not modelled), plus the two infinities and `NaN`.
-/

namespace TrainerApp

/-! ## Values -/

/-- A JavaScript number: `NaN`, plus or minus `Infinity`, or a finite value. -/
inductive JsNumber where
  | nan
  | inf (neg : Bool)
  | fin (q : ℚ)
  deriving DecidableEq

/-- Addition of JavaScript numbers (IEEE rules for the non-finite values). -/
def JsNumber.add : JsNumber → JsNumber → JsNumber
  | .nan, _ => .nan
  | _, .nan => .nan
  | .inf a, .inf b => if a = b then .inf a else .nan
  | .inf a, .fin _ => .inf a
  | .fin _, .inf b => .inf b
  | .fin a, .fin b => .fin (a + b)

/-- Binding a JavaScript number to a `REAL` parameter: SQLite stores `NaN` as `NULL`. -/
def bindReal : JsNumber → Option JsNumber
  | .nan => none
  | x => some x

/-! ## Schema (`initializeDatabase`) -/

/-- A row of `coaches`. -/
structure Coach where
  id : Int
  name : String
  email : String
  phone : Option String
  specialization : Option String
  business_name : Option String
  created_at : String
  deriving DecidableEq

/-- A row of `students`. -/
structure Student where
  id : Int
  coach_id : Int
  name : String
  email : Option String
  phone : Option String
  sport_or_subject : Option String
  batch : Option String
  enrollment_date : String
  status : Option String
  monthly_fee : Option JsNumber
  created_at : String
  deriving DecidableEq

/-- A row of `attendance`. -/
structure Attendance where
  id : Int
  student_id : Int
  date : String
  status : Option String
  notes : Option String
  created_at : String
  deriving DecidableEq

/-- A row of `payments`. -/
structure Payment where
  id : Int
  student_id : Int
  amount : JsNumber
  payment_date : String
  payment_method : Option String
  status : Option String
  month : Option String
  notes : Option String
  transaction_id : Option String
  created_at : String
  deriving DecidableEq

/-- A row of `payment_methods`. -/
structure PaymentMethod where
  id : Int
  coach_id : Int
  method_type : Option String
  provider : Option String
  api_key : Option String
  is_active : Option Int
  created_at : String
  deriving DecidableEq

/-- The database: five tables in rowid order, and for each the largest rowid ever handed
out (`sqlite_sequence`, kept because every primary key is `AUTOINCREMENT`). -/
structure Db where
  coaches : List Coach
  students : List Student
  attendance : List Attendance
  payments : List Payment
  payment_methods : List PaymentMethod
  coachesSeq : Int
  studentsSeq : Int
  attendanceSeq : Int
  paymentsSeq : Int
  paymentMethodsSeq : Int

/-- The database right after `initializeDatabase` on a fresh file. -/
def emptyDb : Db :=
  ⟨[], [], [], [], [], 0, 0, 0, 0, 0⟩

/-- The rowid an `AUTOINCREMENT` key gives a new row: one more than the largest rowid the
table has ever held. -/
def nextRowid (seq : Int) (ids : List Int) : Int :=
  max seq (ids.foldl max 0) + 1

/-- What `executeUpdate` resolves to; `insertId` is `none` when no row was inserted. -/
structure WriteResult where
  insertId : Option Int
  rowsAffected : Nat
  deriving DecidableEq

/-! ## Attendance operations -/

/-- Source function `markAttendance`:
`INSERT OR REPLACE INTO attendance (student_id, date, status, notes)`.
The rows that clash with the new one on `UNIQUE(student_id, date)` are deleted, then the
new row is inserted.  `notes = none` is the omitted argument, which defaults to `''`. -/
def markAttendance (db : Db) (now : String) (studentId : Int) (date : String)
    (status : Option String) (notes : Option String) : Db × WriteResult :=
  let id := nextRowid db.attendanceSeq (db.attendance.map (·.id))
  let kept := db.attendance.filter (fun a => !(a.student_id == studentId && a.date == date))
  let row : Attendance := ⟨id, studentId, date, status, some (notes.getD ""), now⟩
  ({ db with attendance := kept ++ [row], attendanceSeq := id }, ⟨some id, 1⟩)

/-- Source function `getAttendanceByStudent`:
`SELECT * FROM attendance WHERE student_id = ? AND date BETWEEN ? AND ? ORDER BY date DESC`. -/
def getAttendanceByStudent (db : Db) (studentId : Int) (startDate endDate : String) :
    List Attendance :=
  (db.attendance.filter (fun a =>
      a.student_id == studentId &&
        (decide (startDate ≤ a.date) && decide (a.date ≤ endDate)))).insertionSort
    (fun a b => b.date ≤ a.date)

/-- One call of `markAttendance`. -/
structure MarkCall where
  now : String
  studentId : Int
  date : String
  status : Option String
  notes : Option String

/-- The database after a sequence of `markAttendance` calls. -/
def runMarks (db : Db) (calls : List MarkCall) : Db :=
  calls.foldl (fun d c => (markAttendance d c.now c.studentId c.date c.status c.notes).1) db

/-- The attendance rows stored for one (student, date) pair. -/
def attendanceFor (db : Db) (studentId : Int) (date : String) : List Attendance :=
  db.attendance.filter (fun a => a.student_id == studentId && a.date == date)

/-! ## JavaScript string helpers used by the form handlers -/

/-- The characters `String.prototype.trim` and `parseFloat` skip: ECMAScript `WhiteSpace`
and `LineTerminator`. -/
def isJsWhitespace (c : Char) : Bool :=
  c.toNat = 0x09 || c.toNat = 0x0A || c.toNat = 0x0B || c.toNat = 0x0C || c.toNat = 0x0D ||
  c.toNat = 0x20 || c.toNat = 0xA0 || c.toNat = 0x1680 ||
  (0x2000 ≤ c.toNat && c.toNat ≤ 0x200A) ||
  c.toNat = 0x2028 || c.toNat = 0x2029 || c.toNat = 0x202F || c.toNat = 0x205F ||
  c.toNat = 0x3000 || c.toNat = 0xFEFF

/-- The method `String.prototype.trim`. -/
def jsTrim (s : String) : String :=
  String.mk ((s.data.dropWhile isJsWhitespace).reverse.dropWhile isJsWhitespace).reverse

/-- The value of a run of decimal digits. -/
def digitsValue (ds : List Char) : Nat :=
  ds.foldl (fun n c => 10 * n + (c.toNat - 48)) 0

/-- The `ExponentPart` of a decimal literal at the head of `cs`: `e` or `E`, an optional
sign and at least one digit; `0` when there is none. -/
def exponentPart (cs : List Char) : Int :=
  match cs with
  | [] => 0
  | c :: r =>
    if c = 'e' ∨ c = 'E' then
      match r with
      | '+' :: ds =>
        if (ds.takeWhile Char.isDigit).isEmpty then 0
        else (digitsValue (ds.takeWhile Char.isDigit) : Int)
      | '-' :: ds =>
        if (ds.takeWhile Char.isDigit).isEmpty then 0
        else -(digitsValue (ds.takeWhile Char.isDigit) : Int)
      | ds =>
        if (ds.takeWhile Char.isDigit).isEmpty then 0
        else (digitsValue (ds.takeWhile Char.isDigit) : Int)
    else 0

/-- The number `m * 10 ^ e`. -/
def scale10 (m : Int) (e : Int) : ℚ :=
  if 0 ≤ e then mkRat (m * 10 ^ e.toNat) 1 else mkRat m (10 ^ (-e).toNat)

/-- The unsigned part of a `StrDecimalLiteral` at the head of `u`, with sign `neg`. -/
def parseUnsigned (neg : Bool) (u : List Char) : JsNumber :=
  if "Infinity".data.isPrefixOf u then .inf neg
  else
    let ip := u.takeWhile Char.isDigit
    let r1 := u.dropWhile Char.isDigit
    let fp := match r1 with
      | '.' :: r => r.takeWhile Char.isDigit
      | _ => []
    let r2 := match r1 with
      | '.' :: r => r.dropWhile Char.isDigit
      | r => r
    if ip.isEmpty && fp.isEmpty then .nan
    else
      let m : Int := digitsValue (ip ++ fp)
      .fin (scale10 (if neg then -m else m) (exponentPart r2 - fp.length))

/-- The global `parseFloat`: skip leading white space, read the longest prefix that is a
decimal literal, `NaN` when there is none. -/
def parseFloat (s : String) : JsNumber :=
  match s.data.dropWhile isJsWhitespace with
  | '+' :: r => parseUnsigned false r
  | '-' :: r => parseUnsigned true r
  | r => parseUnsigned false r

/-- The expression `x || 0` for a number `x`: `NaN` and zero are falsy. -/
def orZero (x : JsNumber) : JsNumber :=
  match x with
  | .nan => .fin 0
  | .fin q => if q = 0 then .fin 0 else .fin q
  | .inf b => .inf b

/-- The test `x >= 0` for a JavaScript number. -/
def JsNumber.nonneg : JsNumber → Bool
  | .nan => false
  | .inf neg => !neg
  | .fin q => decide (0 ≤ q)

/-! ## SQLite date functions

`strftime('%Y-%m', x)` on the time strings the application stores: a calendar date
`YYYY-MM-DD`, optionally followed by a time `HH:MM`, `HH:MM:SS` or `HH:MM:SS.fff` and a
zone (`Z` or `+HH:MM` / `-HH:MM`).  SQLite reads the fields, moves the instant to UTC and
prints the year and month of the resulting day, so a day number past the end of its month
(`2024-02-31`) or an hour of `24` rolls over into the next month.  The other forms SQLite
accepts (a bare time, a Julian day number, `now`, a year before 0000) are not modelled
and give `none`, as every unreadable string does; fractions of a second are read and
dropped. -/

/-- The characters SQLite's tokenizer treats as space. -/
def isSqlSpace (c : Char) : Bool :=
  c.toNat = 0x20 || c.toNat = 0x09 || c.toNat = 0x0A || c.toNat = 0x0D || c.toNat = 0x0B ||
  c.toNat = 0x0C

/-- Reads exactly `n` digits whose value lies in `lo .. hi`. -/
def getDigits (n lo hi : Nat) (cs : List Char) : Option (Nat × List Char) :=
  let ds := cs.take n
  if ds.length = n ∧ ds.all Char.isDigit = true ∧ lo ≤ digitsValue ds ∧
      digitsValue ds ≤ hi then
    some (digitsValue ds, cs.drop n)
  else none

/-- Reads the zone suffix and requires the end of the string after it; the result is the
offset from UTC in minutes. -/
def parseTimezone (cs : List Char) : Option Int :=
  match cs.dropWhile isSqlSpace with
  | [] => some 0
  | c :: r =>
    if c = 'Z' ∨ c = 'z' then
      if (r.dropWhile isSqlSpace).isEmpty then some 0 else none
    else if c = '+' ∨ c = '-' then
      match getDigits 2 0 14 r with
      | some (h, ':' :: r1) =>
        match getDigits 2 0 59 r1 with
        | some (m, r2) =>
          if (r2.dropWhile isSqlSpace).isEmpty then
            some (if c = '-' then -((h * 60 + m : Nat) : Int) else ((h * 60 + m : Nat) : Int))
          else none
        | none => none
      | _ => none
    else none

/-- Reads `HH:MM[:SS[.fff]]` and the zone; the result is the minute of the day in UTC
(it may fall outside `0 .. 1439`). -/
def parseHhMmSs (cs : List Char) : Option Int :=
  match getDigits 2 0 24 cs with
  | some (h, ':' :: r1) =>
    match getDigits 2 0 59 r1 with
    | some (m, ':' :: r2) =>
      match getDigits 2 0 59 r2 with
      | some (_, '.' :: r3) =>
        (parseTimezone (if (r3.takeWhile Char.isDigit).isEmpty then '.' :: r3
          else r3.dropWhile Char.isDigit)).map (fun tz => ((h * 60 + m : Nat) : Int) - tz)
      | some (_, r3) => (parseTimezone r3).map (fun tz => ((h * 60 + m : Nat) : Int) - tz)
      | none => none
    | some (m, r2) => (parseTimezone r2).map (fun tz => ((h * 60 + m : Nat) : Int) - tz)
    | none => none
  | _ => none

/-- Leap years of the proleptic Gregorian calendar. -/
def isLeapYear (y : Int) : Bool :=
  (y % 4 == 0 && y % 100 != 0) || y % 400 == 0

/-- Days in month `m` of year `y`. -/
def daysInMonth (y : Int) (m : Nat) : Nat :=
  if m = 2 then (if isLeapYear y then 29 else 28)
  else if m = 4 ∨ m = 6 ∨ m = 9 ∨ m = 11 then 30
  else 31

/-- The year and month of day number `d` (counted from the first of month `m` of year `y`,
`0 ≤ d ≤ 32`) once the day is brought back into a real month. -/
def normalizeYm (y : Int) (m : Nat) (d : Int) : Int × Nat :=
  if d < 1 then (if m = 1 then (y - 1, 12) else (y, m - 1))
  else if (daysInMonth y m : Int) < d then (if m = 12 then (y + 1, 1) else (y, m + 1))
  else (y, m)

/-- Two decimal digits. -/
def pad2 (n : Nat) : List Char :=
  [Char.ofNat (48 + n / 10 % 10), Char.ofNat (48 + n % 10)]

/-- The year as `%04d` prints it. -/
def padYear (y : Int) : List Char :=
  if y < 0 then '-' :: Char.ofNat (48 + y.natAbs / 100 % 10) :: pad2 y.natAbs
  else pad2 (y.toNat / 100) ++ pad2 y.toNat

/-- The value of `strftime('%Y-%m', x)`, `none` for `NULL`. -/
def strftimeYm (x : String) : Option String :=
  match getDigits 4 0 9999 x.data with
  | some (y, '-' :: r1) =>
    match getDigits 2 1 12 r1 with
    | some (m, '-' :: r2) =>
      match getDigits 2 1 31 r2 with
      | some (d, r3) =>
        let rest := r3.dropWhile (fun c => isSqlSpace c || c = 'T')
        let minutes : Option Int := if rest.isEmpty then some 0 else parseHhMmSs rest
        match minutes with
        | some t =>
          let ym := normalizeYm y m ((d : Int) + t / 1440)
          if 9999 < ym.1 then none
          else some (String.mk (padYear ym.1 ++ '-' :: pad2 ym.2))
        | none => none
      | none => none
    | _ => none
  | _ => none

/-! ## Student operations -/

/-- A constraint the engine refuses a write on. -/
inductive SqlError where
  | notNull (column : String)
  | unique (column : String)
  deriving DecidableEq

/-- The `studentData` object handed to `addStudent`; `none` is a missing, `undefined` or
`null` property. -/
structure StudentData where
  coach_id : Option Int
  name : Option String
  email : Option String
  phone : Option String
  sport_or_subject : Option String
  batch : Option String
  monthly_fee : Option JsNumber

/-- Source function `addStudent`:
`INSERT INTO students (coach_id, name, email, phone, sport_or_subject,
batch, monthly_fee)`.  `coach_id` and `name` are `NOT NULL`; `status`, `enrollment_date`
and `created_at` are not listed and take their defaults. -/
def addStudent (db : Db) (now : String) (sd : StudentData) : Except SqlError (Db × WriteResult) :=
  match sd.coach_id, sd.name with
  | none, _ => .error (.notNull "students.coach_id")
  | some _, none => .error (.notNull "students.name")
  | some c, some n =>
    let id := nextRowid db.studentsSeq (db.students.map (·.id))
    let row : Student :=
      ⟨id, c, n, sd.email, sd.phone, sd.sport_or_subject, sd.batch, now, some "active",
        sd.monthly_fee.bind bindReal, now⟩
    .ok ({ db with students := db.students ++ [row], studentsSeq := id }, ⟨some id, 1⟩)

/-- Source function `getStudentsByCoach`:
`SELECT * FROM students WHERE coach_id = ? ORDER BY name ASC`. -/
def getStudentsByCoach (db : Db) (coachId : Int) : List Student :=
  (db.students.filter (fun s => s.coach_id == coachId)).insertionSort (fun a b => a.name ≤ b.name)

/-- The order of `ORDER BY name ASC` is total. -/
instance studentNameTotal : IsTotal Student (fun a b => a.name ≤ b.name) :=
  ⟨fun a b => le_total a.name b.name⟩

/-- The order of `ORDER BY name ASC` is transitive. -/
instance studentNameTrans : IsTrans Student (fun a b => a.name ≤ b.name) :=
  ⟨fun _ _ _ hab hbc => le_trans hab hbc⟩

/-- Source function `deleteStudent`: `DELETE FROM students WHERE id = ?`.
No other table is touched and
nothing is checked. -/
def deleteStudent (db : Db) (studentId : Int) : Db × WriteResult :=
  ({ db with students := db.students.filter (fun s => !(s.id == studentId)) },
    ⟨none, (db.students.filter (fun s => s.id == studentId)).length⟩)

/-! ## Payment operations -/

/-- The `paymentData` object handed to `addPayment`. -/
structure PaymentData where
  student_id : Option Int
  amount : Option JsNumber
  payment_method : Option String
  status : Option String
  month : Option String
  notes : Option String
  transaction_id : Option String

/-- Source function `addPayment`:
`INSERT INTO payments (student_id, amount, payment_method, status, month,
notes, transaction_id)`.  `student_id` and `amount` are `NOT NULL`; `payment_date` and
`created_at` are not listed and default to the current time. -/
def addPayment (db : Db) (now : String) (pd : PaymentData) : Except SqlError (Db × WriteResult) :=
  match pd.student_id, pd.amount.bind bindReal with
  | none, _ => .error (.notNull "payments.student_id")
  | some _, none => .error (.notNull "payments.amount")
  | some sid, some amt =>
    let id := nextRowid db.paymentsSeq (db.payments.map (·.id))
    let row : Payment :=
      ⟨id, sid, amt, now, pd.payment_method, pd.status, pd.month, pd.notes, pd.transaction_id, now⟩
    .ok ({ db with payments := db.payments ++ [row], paymentsSeq := id }, ⟨some id, 1⟩)

/-- The aggregate `SUM` over a `REAL` column without `NULL`s: `NULL` over no rows. -/
def sqlSum (xs : List JsNumber) : Option JsNumber :=
  match xs with
  | [] => none
  | x :: r => bindReal ((x :: r).foldl JsNumber.add (.fin 0))

/-- The row an aggregate query returns. -/
structure PaymentSummary where
  total : Option JsNumber
  count : Nat
  deriving DecidableEq

/-- The rows of `payments p JOIN students s ON p.student_id = s.id`. -/
def paymentsJoinStudents (db : Db) : List (Payment × Student) :=
  db.payments.flatMap (fun p =>
    (db.students.filter (fun s => p.student_id == s.id)).map (fun s => (p, s)))

/-- The joined rows `getPaymentSummary` aggregates over:
`WHERE s.coach_id = ? AND strftime('%Y-%m', p.payment_date) = ? AND p.status = 'completed'`. -/
def paymentSummaryRows (db : Db) (coachId : Int) (month : String) : List (Payment × Student) :=
  (paymentsJoinStudents db).filter (fun ps =>
    ps.2.coach_id == coachId && (strftimeYm ps.1.payment_date == some month &&
      ps.1.status == some "completed"))

/-- The result set of the statement in `getPaymentSummary`: an aggregate without
`GROUP BY` yields exactly one row, whatever the number of rows it aggregates. -/
def paymentSummaryQuery (db : Db) (coachId : Int) (month : String) : List PaymentSummary :=
  [⟨sqlSum ((paymentSummaryRows db coachId month).map (fun ps => ps.1.amount)),
    (paymentSummaryRows db coachId month).length⟩]

/-- Source function `getPaymentSummary`: `results[0] || { total: 0, count: 0 }`. -/
def getPaymentSummary (db : Db) (coachId : Int) (month : String) : PaymentSummary :=
  match (paymentSummaryQuery db coachId month).head? with
  | some row => row
  | none => ⟨some (.fin 0), 0⟩

/-- Whether the student a payment refers to exists and belongs to the coach. -/
def paymentOfCoach (db : Db) (coachId : Int) (p : Payment) : Bool :=
  db.students.any (fun s => s.id == p.student_id && s.coach_id == coachId)

/-- The payments a monthly summary is specified over, stated on the payments table alone:
status `completed`, dated in the month, student of the coach. -/
def completedPaymentsIn (db : Db) (coachId : Int) (month : String) : List Payment :=
  db.payments.filter (fun p =>
    p.status == some "completed" &&
      (strftimeYm p.payment_date == some month && paymentOfCoach db coachId p))

/-- A database with one student (id 5, of coach 1) and no other row. -/
def dbOneStudent : Db :=
  { emptyDb with
    students := [⟨5, 1, "Asha", none, none, none, none, "2024-01-10 09:00:00", some "active",
      some (.fin 1500), "2024-01-10 09:00:00"⟩]
    studentsSeq := 5 }

/-- A completed cash payment of `amount` by student `sid`, tagged with `month`. -/
def completedPayment (sid : Int) (amount : ℚ) (month : String) : PaymentData :=
  ⟨some sid, some (.fin amount), some "cash", some "completed", some month, some "", some "TXN-1"⟩

/-- The summary for coach 1 and month `month` after student 5 of `dbOneStudent` has paid
1000 twice, both payments tagged `tag` and recorded at time `now`. -/
def summaryAfterTwoPayments (now tag month : String) : Except SqlError PaymentSummary :=
  match addPayment dbOneStudent now (completedPayment 5 1000 tag) with
  | .error e => .error e
  | .ok (db1, _) =>
    match addPayment db1 now (completedPayment 5 1000 tag) with
    | .error e => .error e
    | .ok (db2, _) => .ok (getPaymentSummary db2 1 month)

/-- A database with a student of coach 1 (id 5) and a student of coach 2 (id 6); in March
2024 student 5 has one completed and one pending payment, student 6 one completed. -/
def dbMarch : Db :=
  { emptyDb with
    students :=
      [⟨5, 1, "Asha", none, none, none, none, "2024-01-10 09:00:00", some "active",
          some (.fin 1500), "2024-01-10 09:00:00"⟩,
        ⟨6, 2, "Bala", none, none, none, none, "2024-01-11 09:00:00", some "active",
          some (.fin 1200), "2024-01-11 09:00:00"⟩]
    payments :=
      [⟨1, 5, .fin 1000, "2024-03-05 10:00:00", some "cash", some "completed", some "2024-03",
          some "", some "TXN-1", "2024-03-05 10:00:00"⟩,
        ⟨2, 5, .fin 500, "2024-03-06 10:00:00", some "cash", some "pending", some "2024-03",
          some "", some "TXN-2", "2024-03-06 10:00:00"⟩,
        ⟨3, 6, .fin 700, "2024-03-07 10:00:00", some "upi", some "completed", some "2024-03",
          some "", some "TXN-3", "2024-03-07 10:00:00"⟩]
    studentsSeq := 6
    paymentsSeq := 3 }

/-- A roster in which coach 1 has two students, entered in the order Meena, Asha, and
coach 2 has one. -/
def dbRoster : Db :=
  { emptyDb with
    students :=
      [⟨1, 1, "Meena", none, none, none, none, "2024-01-10 09:00:00", some "active",
          some (.fin 1500), "2024-01-10 09:00:00"⟩,
        ⟨2, 1, "Asha", none, none, none, none, "2024-01-11 09:00:00", some "active",
          some (.fin 1200), "2024-01-11 09:00:00"⟩,
        ⟨3, 2, "Bala", none, none, none, none, "2024-01-12 09:00:00", some "active",
          some (.fin 900), "2024-01-12 09:00:00"⟩]
    studentsSeq := 3 }

/-- The rows of `dbRoster` with the first two in the opposite order. -/
def dbRosterSwapped : Db :=
  { emptyDb with
    students :=
      [⟨2, 1, "Asha", none, none, none, none, "2024-01-11 09:00:00", some "active",
          some (.fin 1200), "2024-01-11 09:00:00"⟩,
        ⟨1, 1, "Meena", none, none, none, none, "2024-01-10 09:00:00", some "active",
          some (.fin 1500), "2024-01-10 09:00:00"⟩,
        ⟨3, 2, "Bala", none, none, none, none, "2024-01-12 09:00:00", some "active",
          some (.fin 900), "2024-01-12 09:00:00"⟩]
    studentsSeq := 3 }

/-! ## The add-student form (`AddStudentScreen`) -/

/-- The `formData` state of the screen: six text fields, all `''` at first. -/
structure FormData where
  name : String
  email : String
  phone : String
  sport_or_subject : String
  batch : String
  monthly_fee : String

/-- Source function `validateForm`: the trimmed name must be non-empty and a non-empty
email must contain an `@`. -/
def validateForm (f : FormData) : Bool :=
  if (jsTrim f.name).isEmpty then false
  else if !f.email.isEmpty && !f.email.data.contains '@' then false
  else true

/-- The expression `s.trim() || null`. -/
def trimOrNull (s : String) : Option String :=
  if (jsTrim s).isEmpty then none else some (jsTrim s)

/-- The expression `coach?.id || 1`, with `none` for a missing coach. -/
def coachIdOr1 (coachId : Option Int) : Int :=
  match coachId with
  | none => 1
  | some i => if i = 0 then 1 else i

/-- The `studentData` object `handleSubmit` builds from the form. -/
def studentDataOfForm (coachId : Option Int) (f : FormData) : StudentData :=
  { coach_id := some (coachIdOr1 coachId)
    name := some (jsTrim f.name)
    email := trimOrNull f.email
    phone := trimOrNull f.phone
    sport_or_subject := trimOrNull f.sport_or_subject
    batch := trimOrNull f.batch
    monthly_fee := some (orZero (parseFloat f.monthly_fee)) }

/-- How a submission ends. -/
inductive SubmitError where
  | invalidForm
  | database (e : SqlError)
  deriving DecidableEq

/-- Source function `handleSubmit`, as far as the database goes: nothing is written when
`validateForm` fails; otherwise the student is inserted with `addStudent`. -/
def handleSubmit (db : Db) (now : String) (coachId : Option Int) (f : FormData) :
    Except SubmitError (Db × WriteResult) :=
  if validateForm f then
    match addStudent db now (studentDataOfForm coachId f) with
    | .ok r => .ok r
    | .error e => .error (.database e)
  else .error .invalidForm

/-- The test `x < 0` for a JavaScript number. -/
def JsNumber.isNegative : JsNumber → Bool
  | .nan => false
  | .inf neg => neg
  | .fin q => decide (q < 0)

/-- The list `getStudentsByCoach(1)` shows after the form `f` is submitted by coach 1 on a
fresh database; `none` when the submission writes nothing. -/
def studentsAfterSubmit (f : FormData) : Option (List Student) :=
  match handleSubmit emptyDb "2024-03-01 09:00:00" (some 1) f with
  | .ok (db1, _) => some (getStudentsByCoach db1 1)
  | .error _ => none

/-! ## Coach operations -/

/-- The `coachData` object handed to `addCoach`; `none` is a missing, `undefined` or `null`
property. -/
structure CoachData where
  name : Option String
  email : Option String
  phone : Option String
  specialization : Option String
  business_name : Option String

/-- Source function `addCoach`:
`INSERT INTO coaches (name, email, phone, specialization, business_name)`.
`name` and `email` are `NOT NULL` and `email` is `UNIQUE`. -/
def addCoach (db : Db) (now : String) (cd : CoachData) : Except SqlError (Db × WriteResult) :=
  match cd.name, cd.email with
  | none, _ => .error (.notNull "coaches.name")
  | some _, none => .error (.notNull "coaches.email")
  | some n, some e =>
    if db.coaches.any (fun c => c.email == e) then .error (.unique "coaches.email")
    else
      let id := nextRowid db.coachesSeq (db.coaches.map (·.id))
      let row : Coach := ⟨id, n, e, cd.phone, cd.specialization, cd.business_name, now⟩
      .ok ({ db with coaches := db.coaches ++ [row], coachesSeq := id }, ⟨some id, 1⟩)

/-- Source function `getCoachById`: `SELECT * FROM coaches WHERE id = ?`, then
`results[0] || null`; `none` is `null`. -/
def getCoachById (db : Db) (coachId : Int) : Option Coach :=
  (db.coaches.filter (fun c => c.id == coachId)).head?

/-! ## Student update -/

/-- The `studentData` object handed to `updateStudent`; `none` is a missing, `undefined` or
`null` property. -/
structure StudentUpdate where
  name : Option String
  email : Option String
  phone : Option String
  sport_or_subject : Option String
  batch : Option String
  monthly_fee : Option JsNumber
  status : Option String

/-- The row `UPDATE students SET name = ?, email = ?, phone = ?, sport_or_subject = ?,
batch = ?, monthly_fee = ?, status = ?` turns `s` into, given the new (non-null) name. -/
def updatedStudent (s : Student) (name : String) (sd : StudentUpdate) : Student :=
  { s with
    name := name
    email := sd.email
    phone := sd.phone
    sport_or_subject := sd.sport_or_subject
    batch := sd.batch
    monthly_fee := sd.monthly_fee.bind bindReal
    status := sd.status }

/-- Source function `updateStudent`: `UPDATE students SET ... WHERE id = ?`.  `name` is
`NOT NULL`, so the statement is refused when a row is selected and the name is missing;
with no row selected nothing is checked and nothing changes. -/
def updateStudent (db : Db) (studentId : Int) (sd : StudentUpdate) :
    Except SqlError (Db × WriteResult) :=
  if db.students.any (fun s => s.id == studentId) then
    match sd.name with
    | none => .error (.notNull "students.name")
    | some n =>
      .ok ({ db with
              students := db.students.map (fun s =>
                if s.id == studentId then updatedStudent s n sd else s) },
        ⟨none, (db.students.filter (fun s => s.id == studentId)).length⟩)
  else .ok (db, ⟨none, 0⟩)

/-! ## Attendance queries -/

/-- The order of `ORDER BY date DESC` is total. -/
instance attendanceDateTotal : IsTotal Attendance (fun a b => b.date ≤ a.date) :=
  ⟨fun a b => le_total b.date a.date⟩

/-- The order of `ORDER BY date DESC` is transitive. -/
instance attendanceDateTrans : IsTrans Attendance (fun a b => b.date ≤ a.date) :=
  ⟨fun _ _ _ hab hbc => le_trans hbc hab⟩

/-- A row of `getAttendanceSummary`: `status, COUNT(*) as count`. -/
structure AttendanceSummaryRow where
  status : Option String
  count : Nat
  deriving DecidableEq

/-- The rows `getAttendanceSummary` groups:
`WHERE student_id = ? AND strftime('%Y-%m', date) = ?`. -/
def attendanceInMonth (db : Db) (studentId : Int) (month : String) : List Attendance :=
  db.attendance.filter (fun a => a.student_id == studentId && strftimeYm a.date == some month)

/-- Source function `getAttendanceSummary`: `SELECT status, COUNT(*) as count ... GROUP BY
status`: one row per distinct status (`NULL` is a status of its own) with the number of
rows of that status.  SQL leaves the order of the groups open. -/
def getAttendanceSummary (db : Db) (studentId : Int) (month : String) :
    List AttendanceSummaryRow :=
  ((attendanceInMonth db studentId month).map (·.status)).dedup.map (fun st =>
    ⟨st, ((attendanceInMonth db studentId month).filter (fun a => a.status == st)).length⟩)

/-- The rows of `attendance a JOIN students s ON a.student_id = s.id`. -/
def attendanceJoinStudents (db : Db) : List (Attendance × Student) :=
  db.attendance.flatMap (fun a =>
    (db.students.filter (fun s => a.student_id == s.id)).map (fun s => (a, s)))

/-- A row of `getAttendanceByDate`: `a.*, s.name`. -/
structure AttendanceWithName where
  attendance : Attendance
  name : String
  deriving DecidableEq

/-- The order of `ORDER BY s.name ASC` on joined attendance rows is total. -/
instance attendanceJoinNameTotal :
    IsTotal (Attendance × Student) (fun x y => x.2.name ≤ y.2.name) :=
  ⟨fun x y => le_total x.2.name y.2.name⟩

/-- The order of `ORDER BY s.name ASC` on joined attendance rows is transitive. -/
instance attendanceJoinNameTrans :
    IsTrans (Attendance × Student) (fun x y => x.2.name ≤ y.2.name) :=
  ⟨fun _ _ _ hab hbc => le_trans hab hbc⟩

/-- Source function `getAttendanceByDate`: `SELECT a.*, s.name FROM attendance a JOIN
students s ON a.student_id = s.id WHERE s.coach_id = ? AND a.date = ? ORDER BY s.name ASC`. -/
def getAttendanceByDate (db : Db) (coachId : Int) (date : String) : List AttendanceWithName :=
  (((attendanceJoinStudents db).filter (fun x =>
      x.2.coach_id == coachId && x.1.date == date)).insertionSort
    (fun x y => x.2.name ≤ y.2.name)).map (fun x => ⟨x.1, x.2.name⟩)

/-- Whether the student an attendance record refers to exists and belongs to the coach. -/
def attendanceOfCoach (db : Db) (coachId : Int) (a : Attendance) : Bool :=
  db.students.any (fun s => s.id == a.student_id && s.coach_id == coachId)

/-! ## Payment queries and status update -/

/-- A row of `getPendingPayments`: `p.*, s.name as student_name`. -/
structure PaymentWithStudent where
  payment : Payment
  student_name : String
  deriving DecidableEq

/-- The order of `ORDER BY p.payment_date ASC` on joined payment rows is total. -/
instance paymentJoinDateTotal :
    IsTotal (Payment × Student) (fun x y => x.1.payment_date ≤ y.1.payment_date) :=
  ⟨fun x y => le_total x.1.payment_date y.1.payment_date⟩

/-- The order of `ORDER BY p.payment_date ASC` on joined payment rows is transitive. -/
instance paymentJoinDateTrans :
    IsTrans (Payment × Student) (fun x y => x.1.payment_date ≤ y.1.payment_date) :=
  ⟨fun _ _ _ hab hbc => le_trans hab hbc⟩

/-- The order of `ORDER BY payment_date ASC` on payments is total. -/
instance paymentDateTotal : IsTotal Payment (fun a b => a.payment_date ≤ b.payment_date) :=
  ⟨fun a b => le_total a.payment_date b.payment_date⟩

/-- The order of `ORDER BY payment_date ASC` on payments is transitive. -/
instance paymentDateTrans : IsTrans Payment (fun a b => a.payment_date ≤ b.payment_date) :=
  ⟨fun _ _ _ hab hbc => le_trans hab hbc⟩

/-- Source function `getPendingPayments`: `SELECT p.*, s.name as student_name FROM payments p
JOIN students s ON p.student_id = s.id WHERE s.coach_id = ? AND p.status = 'pending'
ORDER BY p.payment_date ASC`. -/
def getPendingPayments (db : Db) (coachId : Int) : List PaymentWithStudent :=
  (((paymentsJoinStudents db).filter (fun x =>
      x.2.coach_id == coachId && x.1.status == some "pending")).insertionSort
    (fun x y => x.1.payment_date ≤ y.1.payment_date)).map (fun x => ⟨x.1, x.2.name⟩)

/-- Source function `updatePaymentStatus`: `UPDATE payments SET status = ? WHERE id = ?`. -/
def updatePaymentStatus (db : Db) (paymentId : Int) (status : Option String) :
    Db × WriteResult :=
  ({ db with
      payments := db.payments.map (fun p =>
        if p.id == paymentId then { p with status := status } else p) },
    ⟨none, (db.payments.filter (fun p => p.id == paymentId)).length⟩)

/-! ## The record-payment form (`PaymentsScreen`) -/

/-- The value of a hexadecimal digit, `none` for any other character. -/
def hexDigitValue (c : Char) : Option Nat :=
  if 48 ≤ c.toNat ∧ c.toNat ≤ 57 then some (c.toNat - 48)
  else if 97 ≤ c.toNat ∧ c.toNat ≤ 102 then some (c.toNat - 87)
  else if 65 ≤ c.toNat ∧ c.toNat ≤ 70 then some (c.toNat - 55)
  else none

/-- The longest run of decimal digits at the head of `u` as a number, `none` (`NaN`) when
there is no digit. -/
def parseDecimalRun (u : List Char) : Option Int :=
  if (u.takeWhile Char.isDigit).isEmpty then none
  else some (digitsValue (u.takeWhile Char.isDigit) : Int)

/-- The longest run of hexadecimal digits at the head of `u` as a number, `none` (`NaN`)
when there is no digit. -/
def parseHexRun (u : List Char) : Option Int :=
  if (u.takeWhile (fun c => (hexDigitValue c).isSome)).isEmpty then none
  else some (((u.takeWhile (fun c => (hexDigitValue c).isSome)).foldl
    (fun n c => 16 * n + (hexDigitValue c).getD 0) 0 : Nat) : Int)

/-- The unsigned part of `parseInt` without a radix argument: hexadecimal after `0x` or
`0X`, decimal otherwise. -/
def parseIntUnsigned (u : List Char) : Option Int :=
  match u with
  | '0' :: x :: r => if x = 'x' ∨ x = 'X' then parseHexRun r else parseDecimalRun u
  | _ => parseDecimalRun u

/-- The global `parseInt` with one argument: skip leading white space, read a sign and the
longest run of digits; `none` is `NaN`. -/
def parseInt (s : String) : Option Int :=
  match s.data.dropWhile isJsWhitespace with
  | '+' :: r => parseIntUnsigned r
  | '-' :: r => (parseIntUnsigned r).map (fun n => -n)
  | r => parseIntUnsigned r

/-- The `paymentForm` state of the screen: five text fields. -/
structure PaymentForm where
  student_id : String
  amount : String
  payment_method : String
  month : String
  notes : String

/-- The `paymentData` object `handleAddPayment` builds from the form; `dateNow` is the
value of `Date.now()`. -/
def paymentDataOfForm (dateNow : Nat) (f : PaymentForm) : PaymentData :=
  { student_id := parseInt f.student_id
    amount := some (parseFloat f.amount)
    payment_method := some f.payment_method
    status := some "completed"
    month := some f.month
    notes := some f.notes
    transaction_id := some ("TXN-" ++ toString dateNow) }

/-- Source function `handleAddPayment`, as far as the database goes: nothing is written
when the student or the amount text is empty; otherwise the payment is inserted with
`addPayment`. -/
def handleAddPayment (db : Db) (now : String) (dateNow : Nat) (f : PaymentForm) :
    Except SubmitError (Db × WriteResult) :=
  if f.student_id.isEmpty || f.amount.isEmpty then .error .invalidForm
  else
    match addPayment db now (paymentDataOfForm dateNow f) with
    | .ok r => .ok r
    | .error e => .error (.database e)

/-- The payments table after the form `f` is submitted on `dbOneStudent`; `none` when the
submission fails. -/
def paymentsAfterSubmit (f : PaymentForm) : Option (List Payment) :=
  match handleAddPayment dbOneStudent "2024-03-05 10:00:00" 1709632800000 f with
  | .ok (db1, _) => some db1.payments
  | .error _ => none

/-! ## Payment method operations -/

/-- The `methodData` object handed to `addPaymentMethod` (which reads the first three
properties) and `updatePaymentMethod` (which reads all four). -/
structure PaymentMethodData where
  method_type : Option String
  provider : Option String
  api_key : Option String
  is_active : Option Int

/-- Source function `addPaymentMethod`:
`INSERT INTO payment_methods (coach_id, method_type, provider, api_key)`; `is_active` is
not listed and takes its default `1`. -/
def addPaymentMethod (db : Db) (now : String) (coachId : Int) (md : PaymentMethodData) :
    Db × WriteResult :=
  let id := nextRowid db.paymentMethodsSeq (db.payment_methods.map (·.id))
  let row : PaymentMethod := ⟨id, coachId, md.method_type, md.provider, md.api_key, some 1, now⟩
  ({ db with payment_methods := db.payment_methods ++ [row], paymentMethodsSeq := id },
    ⟨some id, 1⟩)

/-- Source function `getPaymentMethods`:
`SELECT * FROM payment_methods WHERE coach_id = ? AND is_active = 1`. -/
def getPaymentMethods (db : Db) (coachId : Int) : List PaymentMethod :=
  db.payment_methods.filter (fun m => m.coach_id == coachId && m.is_active == some 1)

/-- Source function `updatePaymentMethod`: `UPDATE payment_methods SET method_type = ?,
provider = ?, api_key = ?, is_active = ? WHERE id = ?`. -/
def updatePaymentMethod (db : Db) (methodId : Int) (md : PaymentMethodData) :
    Db × WriteResult :=
  ({ db with
      payment_methods := db.payment_methods.map (fun m =>
        if m.id == methodId then
          { m with
            method_type := md.method_type
            provider := md.provider
            api_key := md.api_key
            is_active := md.is_active }
        else m) },
    ⟨none, (db.payment_methods.filter (fun m => m.id == methodId)).length⟩)

/-! ## Sample databases -/

/-- The roster `dbRoster` with three attendance records: Meena and Bala on 2024-03-01,
Asha on 2024-03-02. -/
def dbAttendance : Db :=
  { dbRoster with
    attendance :=
      [⟨1, 1, "2024-03-01", some "present", some "", "2024-03-01 08:00:00"⟩,
        ⟨2, 3, "2024-03-01", some "absent", some "", "2024-03-01 08:00:01"⟩,
        ⟨3, 2, "2024-03-02", some "present", some "", "2024-03-02 08:00:00"⟩]
    attendanceSeq := 3 }

/-- The students table after `updateStudent(5, sd)` on `dbOneStudent`; `none` when the
statement is refused. -/
def studentsAfterUpdate (sd : StudentUpdate) : Option (List Student) :=
  match updateStudent dbOneStudent 5 sd with
  | .ok (db1, _) => some db1.students
  | .error _ => none

/-- A database with one coach (id 1) and one payment method of that coach (id 1). -/
def dbCoach : Db :=
  { emptyDb with
    coaches := [⟨1, "Demo Coach", "demo@coach.com", some "9876543210", some "Cricket",
      some "Elite Sports Academy", "2024-01-01 08:00:00"⟩]
    payment_methods := [⟨1, 1, some "upi", some "razorpay", some "key-1", some 1,
      "2024-01-02 08:00:00"⟩]
    coachesSeq := 1
    paymentMethodsSeq := 1 }

/-! ## The client cache (`store/appStore.js`) -/

/-- A JavaScript value a cache entry holds in a property. -/
inductive JsValue where
  | undefined
  | null
  | bool (b : Bool)
  | num (x : JsNumber)
  | str (s : String)
  deriving DecidableEq

/-- Strict equality `a === b`: same type and same value; `NaN` equals nothing. -/
def JsValue.strictEq : JsValue → JsValue → Bool
  | .undefined, .undefined => true
  | .null, .null => true
  | .bool a, .bool b => a == b
  | .num (.fin a), .num (.fin b) => decide (a = b)
  | .num (.inf a), .num (.inf b) => a == b
  | .str a, .str b => a == b
  | _, _ => false

/-- A plain JavaScript object: its own properties in enumeration order. -/
abbrev JsObject := List (String × JsValue)

/-- The own property `key` of an object, `none` when the object has no such property. -/
def JsObject.get? : JsObject → String → Option JsValue
  | [], _ => none
  | (k, v) :: r, key => if k = key then some v else JsObject.get? r key

/-- Property access `o.key`: `undefined` when the property is missing. -/
def JsObject.prop (o : JsObject) (key : String) : JsValue :=
  (JsObject.get? o key).getD .undefined

/-- Object spread `{ ...s, ...p }`: the properties of `s` in their order, each with the
value `p` gives it when `p` has the property, followed by the properties only `p` has. -/
def JsObject.spread (s p : JsObject) : JsObject :=
  s.map (fun kv => (kv.1, (JsObject.get? p kv.1).getD kv.2)) ++
    p.filter (fun kv => (JsObject.get? s kv.1).isNone)

/-- The state held by `useAppStore`. -/
structure AppStore where
  coach : Option JsObject
  students : List JsObject
  attendance : List JsObject
  payments : List JsObject
  loading : Bool
  error : JsValue
  successMessage : JsValue
  selectedMonth : String
  selectedStudent : Option JsObject

/-- Source function `addStudentToStore`: `students: [...state.students, student]`. -/
def addStudentToStore (st : AppStore) (student : JsObject) : AppStore :=
  { st with students := st.students ++ [student] }

/-- Source function `updateStudentInStore`:
`students.map(s => s.id === studentId ? { ...s, ...updatedData } : s)`. -/
def updateStudentInStore (st : AppStore) (studentId : JsValue) (updatedData : JsObject) :
    AppStore :=
  { st with
    students := st.students.map (fun s =>
      if (JsObject.prop s "id").strictEq studentId then JsObject.spread s updatedData else s) }

/-- Source function `removeStudentFromStore`: `students.filter(s => s.id !== studentId)`. -/
def removeStudentFromStore (st : AppStore) (studentId : JsValue) : AppStore :=
  { st with
    students := st.students.filter (fun s => !(JsObject.prop s "id").strictEq studentId) }

/-- Source function `addAttendanceRecord`: `attendance: [...state.attendance, record]`. -/
def addAttendanceRecord (st : AppStore) (record : JsObject) : AppStore :=
  { st with attendance := st.attendance ++ [record] }

/-- Source function `addPaymentToStore`: `payments: [...state.payments, payment]`. -/
def addPaymentToStore (st : AppStore) (payment : JsObject) : AppStore :=
  { st with payments := st.payments ++ [payment] }

/-- Source function `updatePaymentInStore`:
`payments.map(p => p.id === paymentId ? { ...p, ...updatedData } : p)`. -/
def updatePaymentInStore (st : AppStore) (paymentId : JsValue) (updatedData : JsObject) :
    AppStore :=
  { st with
    payments := st.payments.map (fun p =>
      if (JsObject.prop p "id").strictEq paymentId then JsObject.spread p updatedData else p) }

/-- A cache with two students (ids 1 and 2) and one payment (id 7). -/
def sampleStore : AppStore :=
  { coach := some [("id", .num (.fin 1)), ("name", .str "Demo Coach")]
    students :=
      [[("id", .num (.fin 1)), ("name", .str "Meena"), ("status", .str "active")],
        [("id", .num (.fin 2)), ("name", .str "Asha"), ("status", .str "active")]]
    attendance := []
    payments := [[("id", .num (.fin 7)), ("amount", .num (.fin 1000)), ("status", .str "pending")]]
    loading := false
    error := .null
    successMessage := .null
    selectedMonth := "2024-03"
    selectedStudent := none }

/-! ## The students list screen (`StudentsScreen`) -/

/-- The method `String.prototype.includes`: `q` occurs in `s` as a contiguous run. -/
def jsIncludes (s q : String) : Bool :=
  s.data.tails.any (fun t => q.data.isPrefixOf t)

/-- Source function `filterStudents`; the result is the list handed to
`setFilteredStudents`.  `toLowerCase` stands for `String.prototype.toLowerCase`. -/
def filterStudents (toLowerCase : String → String) (studentsList : List Student)
    (query status : String) : List Student :=
  let filtered :=
    if status ≠ "all" then studentsList.filter (fun s => s.status == some status)
    else studentsList
  if (jsTrim query).isEmpty then filtered
  else
    filtered.filter (fun s =>
      jsIncludes (toLowerCase s.name) (toLowerCase query) ||
      (match s.email with
        | some e => jsIncludes (toLowerCase e) (toLowerCase query)
        | none => false) ||
      (match s.phone with
        | some ph => jsIncludes ph query
        | none => false))

/-! ## Payment lists -/

/-- The order of `ORDER BY payment_date DESC` on payments is total. -/
instance paymentDateDescTotal : IsTotal Payment (fun a b => b.payment_date ≤ a.payment_date) :=
  ⟨fun a b => le_total b.payment_date a.payment_date⟩

/-- The order of `ORDER BY payment_date DESC` on payments is transitive. -/
instance paymentDateDescTrans : IsTrans Payment (fun a b => b.payment_date ≤ a.payment_date) :=
  ⟨fun _ _ _ hab hbc => le_trans hbc hab⟩

/-- The order of `ORDER BY p.payment_date DESC` on joined payment rows is total. -/
instance paymentJoinDateDescTotal :
    IsTotal (Payment × Student) (fun x y => y.1.payment_date ≤ x.1.payment_date) :=
  ⟨fun x y => le_total y.1.payment_date x.1.payment_date⟩

/-- The order of `ORDER BY p.payment_date DESC` on joined payment rows is transitive. -/
instance paymentJoinDateDescTrans :
    IsTrans (Payment × Student) (fun x y => y.1.payment_date ≤ x.1.payment_date) :=
  ⟨fun _ _ _ hab hbc => le_trans hbc hab⟩

/-- Source function `getPaymentsByStudent`:
`SELECT * FROM payments WHERE student_id = ? ORDER BY payment_date DESC`. -/
def getPaymentsByStudent (db : Db) (studentId : Int) : List Payment :=
  (db.payments.filter (fun p => p.student_id == studentId)).insertionSort
    (fun a b => b.payment_date ≤ a.payment_date)

/-- Source function `getPaymentsByCoach`: `SELECT p.*, s.name as student_name FROM payments p
JOIN students s ON p.student_id = s.id WHERE s.coach_id = ? ORDER BY p.payment_date DESC`. -/
def getPaymentsByCoach (db : Db) (coachId : Int) : List PaymentWithStudent :=
  (((paymentsJoinStudents db).filter (fun x => x.2.coach_id == coachId)).insertionSort
    (fun x y => y.1.payment_date ≤ x.1.payment_date)).map (fun x => ⟨x.1, x.2.name⟩)

/-! ## The dashboard (`DashboardScreen`) -/

/-- The `stats` state of the dashboard. -/
structure DashboardStats where
  totalStudents : Nat
  monthlyRevenue : JsNumber
  totalRevenue : JsNumber
  attendanceToday : Nat

/-- The expression `x || 0` for a column value that may be `NULL`. -/
def orZeroNullable (x : Option JsNumber) : JsNumber :=
  match x with
  | none => .fin 0
  | some v => orZero v

/-- The expression `iso.split('T')[0]`: the text before the first `T`. -/
def isoDay (iso : String) : String :=
  String.mk (iso.data.takeWhile (fun c => c != 'T'))

/-- The expression `iso.slice(0, 7)`. -/
def isoMonth (iso : String) : String :=
  String.mk (iso.data.take 7)

/-- Source function `loadDashboardData`: the statistics handed to `setStats`; `nowIso` is
`new Date().toISOString()`. -/
def loadDashboardData (db : Db) (coachId : Option Int) (nowIso : String) : DashboardStats :=
  { totalStudents := (getStudentsByCoach db (coachIdOr1 coachId)).length
    monthlyRevenue :=
      orZeroNullable (getPaymentSummary db (coachIdOr1 coachId) (isoMonth nowIso)).total
    totalRevenue :=
      (getStudentsByCoach db (coachIdOr1 coachId)).foldl
        (fun sum s => sum.add (orZeroNullable s.monthly_fee)) (.fin 0)
    attendanceToday := (getAttendanceByDate db (coachIdOr1 coachId) (isoDay nowIso)).length }

/-- The roster `dbRoster` on 2024-03-01: of coach 1, Meena is marked absent and Asha
present. -/
def dbAbsentToday : Db :=
  { dbRoster with
    attendance :=
      [⟨1, 1, "2024-03-01", some "absent", some "", "2024-03-01 08:00:00"⟩,
        ⟨2, 2, "2024-03-01", some "present", some "", "2024-03-01 08:00:01"⟩]
    attendanceSeq := 2 }

/-! ## The attendance screen (`AttendanceScreen`) -/

/-- The decimal digits of `n`, most significant first; `fuel` bounds the number of digits. -/
def natDigitsAux : Nat → Nat → List Char
  | 0, _ => []
  | fuel + 1, n =>
    if n < 10 then [Char.ofNat (48 + n)]
    else natDigitsAux fuel (n / 10) ++ [Char.ofNat (48 + n % 10)]

/-- The decimal digits of `n`. -/
def natDigits (n : Nat) : List Char :=
  natDigitsAux (n + 1) n

/-- The property key of an integer id, `String(n)`: its decimal text. -/
def idKey (n : Int) : String :=
  String.mk (if n < 0 then '-' :: natDigits n.natAbs else natDigits n.natAbs)

/-- The `attendance` state of the screen: an object from student id keys to statuses
(`none` is `null`), as the list of its entries with distinct keys. -/
abbrev AttendanceMarks := List (String × Option String)

/-- The assignment `map[key] = value`: an existing property keeps its place, a new one is
added last. -/
def setKey : AttendanceMarks → String → Option String → AttendanceMarks
  | [], key, value => [(key, value)]
  | (k, v) :: r, key, value =>
    if k = key then (k, value) :: r else (k, v) :: setKey r key value

/-- The value of `map[key]` with `none` for a missing property. -/
def getKey : AttendanceMarks → String → Option (Option String)
  | [], _ => none
  | (k, v) :: r, key => if k = key then some v else getKey r key

/-- Whether a property key is an array index: the decimal text of an integer from `0` to
`2^32 - 2`. -/
def isIndexKey (k : String) : Bool :=
  match parseInt k with
  | some n => decide (0 ≤ n) && decide (n < 4294967295) && (idKey n == k)
  | none => false

/-- The entries in the order `Object.entries` yields them: array index keys in ascending
numeric order, then the other keys in insertion order. -/
def objectEntries (m : AttendanceMarks) : AttendanceMarks :=
  (m.filter (fun kv => isIndexKey kv.1)).insertionSort
      (fun a b => (parseInt a.1).getD 0 ≤ (parseInt b.1).getD 0) ++
    m.filter (fun kv => !isIndexKey kv.1)

/-- The loop of `saveAttendance`: `markAttendance(parseInt(studentId), selectedDate, status,
'')` for each entry in turn.  A key that is not a number binds `NULL` to `student_id`,
which the table refuses; the loop stops there and the flag is `false`.  The clock reading
`now` is shared by the writes of one save. -/
def saveLoop (db : Db) (now date : String) : AttendanceMarks → Db × Bool
  | [] => (db, true)
  | (k, status) :: rest =>
    match parseInt k with
    | none => (db, false)
    | some sid => saveLoop (markAttendance db now sid date status (some "")).1 now date rest

/-- How `saveAttendance` ends. -/
inductive SaveOutcome where
  | nothingMarked
  | saved
  | failed
  deriving DecidableEq

/-- Source function `saveAttendance`: nothing is done when the map has no key; otherwise
every entry is written with `markAttendance`. -/
def saveAttendance (db : Db) (now : String) (selectedDate : String) (attendance : AttendanceMarks) :
    Db × SaveOutcome :=
  if attendance.isEmpty then (db, .nothingMarked)
  else
    match saveLoop db now selectedDate (objectEntries attendance) with
    | (db1, true) => (db1, .saved)
    | (db1, false) => (db1, .failed)

/-- The `students` and `attendance` state of the screen. -/
structure AttendanceScreenState where
  students : List Student
  attendance : AttendanceMarks

/-- Source function `loadAttendanceData`: the active students of the coach, and the map
from `record.student_id` to `record.status` over the records of the selected date. -/
def loadAttendanceData (db : Db) (coachId : Option Int) (selectedDate : String) :
    AttendanceScreenState :=
  { students :=
      (getStudentsByCoach db (coachIdOr1 coachId)).filter (fun s => s.status == some "active")
    attendance :=
      (getAttendanceByDate db (coachIdOr1 coachId) selectedDate).foldl
        (fun m r => setKey m (idKey r.attendance.student_id) r.attendance.status) [] }

/-- The figure `presentCount`: the values of the map that are `'present'`. -/
def presentCount (attendance : AttendanceMarks) : Nat :=
  (attendance.filter (fun kv => kv.2 == some "present")).length

/-- The figure `absentCount`: the values of the map that are `'absent'`. -/
def absentCount (attendance : AttendanceMarks) : Nat :=
  (attendance.filter (fun kv => kv.2 == some "absent")).length

/-- A database in which the only student of coach 1 (id 2) is inactive and has a
`present` record on 2024-03-01. -/
def dbInactiveMarked : Db :=
  { emptyDb with
    students := [⟨2, 1, "Asha", none, none, none, none, "2024-01-11 09:00:00", some "inactive",
      some (.fin 1200), "2024-01-11 09:00:00"⟩]
    attendance := [⟨1, 2, "2024-03-01", some "present", some "", "2024-03-01 08:00:00"⟩]
    studentsSeq := 2
    attendanceSeq := 1 }

/-! ## The student-detail screen (`StudentDetailScreen`) -/

/-- The template literal `${currentMonth}-01` of `loadStudentDetails`. -/
def startDate (currentMonth : String) : String :=
  currentMonth ++ "-01"

/-- The template literal `${currentMonth}-31` of `loadStudentDetails`. -/
def endDate (currentMonth : String) : String :=
  currentMonth ++ "-31"

/-- The attendance query of source function `loadStudentDetails`:
`getAttendanceByStudent(studentId, startDate, endDate)` for the month of `nowIso`, which is
`new Date().toISOString()`. -/
def loadStudentAttendance (db : Db) (studentId : Int) (nowIso : String) : List Attendance :=
  getAttendanceByStudent db studentId (startDate (isoMonth nowIso)) (endDate (isoMonth nowIso))

/-- Whether a text has the shape `YYYY-MM-DD`: ten characters, digits around two hyphens,
month `01` to `12`, day `01` to `31`. -/
def isIsoDate (x : String) : Bool :=
  match x.data with
  | [y1, y2, y3, y4, c1, m1, m2, c2, d1, d2] =>
    y1.isDigit && y2.isDigit && y3.isDigit && y4.isDigit && c1 == '-' &&
      m1.isDigit && m2.isDigit && c2 == '-' && d1.isDigit && d2.isDigit &&
      decide (1 ≤ digitsValue [m1, m2]) && decide (digitsValue [m1, m2] ≤ 12) &&
      decide (1 ≤ digitsValue [d1, d2]) && decide (digitsValue [d1, d2] ≤ 31)
  | _ => false

/-- Attendance of student 1 on the last days of February and the first of March 2024. -/
def dbFebruary : Db :=
  { dbRoster with
    attendance :=
      [⟨1, 1, "2024-02-28", some "present", some "", "2024-02-28 08:00:00"⟩,
        ⟨2, 1, "2024-02-29", some "absent", some "", "2024-02-29 08:00:00"⟩,
        ⟨3, 1, "2024-03-01", some "present", some "", "2024-03-01 08:00:00"⟩]
    attendanceSeq := 3 }

/-! ## The payments screen (`PaymentsScreen`) -/

/-- The list `monthlyPayments` of the payments screen:
`payments.filter((p) => p.payment_date.slice(0, 7) === selectedMonth)`. -/
def monthlyPayments (payments : List PaymentWithStudent) (selectedMonth : String) :
    List PaymentWithStudent :=
  payments.filter (fun p => isoMonth p.payment.payment_date == selectedMonth)

/-- Whether a text has the shape `YYYY-MM-DD HH:MM:SS` that `CURRENT_TIMESTAMP` produces,
with a day that exists in the month, an hour up to 23, minutes and seconds up to 59. -/
def isSqlTimestamp (x : String) : Bool :=
  match x.data with
  | [y1, y2, y3, y4, c1, m1, m2, c2, d1, d2, c3, h1, h2, c4, n1, n2, c5, s1, s2] =>
    y1.isDigit && y2.isDigit && y3.isDigit && y4.isDigit && m1.isDigit && m2.isDigit &&
      d1.isDigit && d2.isDigit && h1.isDigit && h2.isDigit && n1.isDigit && n2.isDigit &&
      s1.isDigit && s2.isDigit &&
      c1 == '-' && c2 == '-' && c3 == ' ' && c4 == ':' && c5 == ':' &&
      decide (1 ≤ digitsValue [m1, m2]) && decide (digitsValue [m1, m2] ≤ 12) &&
      decide (1 ≤ digitsValue [d1, d2]) &&
      decide (digitsValue [d1, d2] ≤
        daysInMonth (digitsValue [y1, y2, y3, y4] : Nat) (digitsValue [m1, m2])) &&
      decide (digitsValue [h1, h2] ≤ 23) && decide (digitsValue [n1, n2] ≤ 59) &&
      decide (digitsValue [s1, s2] ≤ 59)
  | _ => false

/-! # Theorems -/

/-! ## Attendance: the upsert law -/

theorem attendanceFor_markAttendance_same (db : Db) (now : String) (s : Int) (d : String)
    (st n : Option String) :
    attendanceFor (markAttendance db now s d st n).1 s d =
      [⟨nextRowid db.attendanceSeq (db.attendance.map (·.id)), s, d, st, some (n.getD ""), now⟩] := by
  simp [attendanceFor, markAttendance, List.filter_append, List.filter_filter]

theorem attendanceFor_markAttendance_other (db : Db) (now : String) (s s' : Int) (d d' : String)
    (st n : Option String) (h : ¬ (s' = s ∧ d' = d)) :
    attendanceFor (markAttendance db now s d st n).1 s' d' = attendanceFor db s' d' := by
  have h1 : ¬ (s = s' ∧ d = d') := fun ⟨a, b⟩ => h ⟨a.symm, b.symm⟩
  simp only [attendanceFor, markAttendance, List.filter_append, List.filter_filter]
  have h2 : List.filter (fun a : Attendance => a.student_id == s' && a.date == d')
      [(⟨nextRowid db.attendanceSeq (db.attendance.map (·.id)), s, d, st, some (n.getD ""), now⟩ :
        Attendance)] = [] := by
    simp [h1]
  rw [h2, List.append_nil]
  apply List.filter_congr
  intro a _
  rw [Bool.eq_iff_iff]
  simp only [Bool.and_eq_true, Bool.not_eq_true', Bool.and_eq_false_iff, beq_iff_eq,
    beq_eq_false_iff_ne, ne_eq]
  constructor
  · intro hh
    exact hh.1
  · intro hh
    refine ⟨hh, ?_⟩
    by_contra hc
    push_neg at hc
    exact h ⟨hh.1 ▸ hc.1, hh.2 ▸ hc.2⟩

/-- C1: marking attendance twice for the same student and date leaves, in the range query
for that single day, exactly one record; it carries the status and notes of the second
call. -/
theorem markAttendance_twice_last_wins (db : Db) (now1 now2 : String) (s : Int) (d : String)
    (st1 n1 st2 n2 : Option String) :
    ∃ r : Attendance,
      getAttendanceByStudent
          (markAttendance (markAttendance db now1 s d st1 n1).1 now2 s d st2 n2).1 s d d = [r] ∧
        r.student_id = s ∧ r.date = d ∧ r.status = st2 ∧ r.notes = some (n2.getD "") := by
  have key : ∀ (db0 : Db), (markAttendance db0 now2 s d st2 n2).1.attendance.filter
      (fun a => a.student_id == s && (decide (d ≤ a.date) && decide (a.date ≤ d))) =
      attendanceFor (markAttendance db0 now2 s d st2 n2).1 s d := by
    intro db0
    unfold attendanceFor
    apply List.filter_congr
    intro a _
    rw [Bool.eq_iff_iff]
    simp only [Bool.and_eq_true, beq_iff_eq, decide_eq_true_eq]
    constructor
    · intro hh
      exact ⟨hh.1, le_antisymm hh.2.2 hh.2.1⟩
    · intro hh
      exact ⟨hh.1, hh.2 ▸ le_refl _, hh.2 ▸ le_refl _⟩
  refine ⟨⟨nextRowid (markAttendance db now1 s d st1 n1).1.attendanceSeq
      ((markAttendance db now1 s d st1 n1).1.attendance.map (·.id)), s, d, st2,
      some (n2.getD ""), now2⟩, ?_, rfl, rfl, rfl, rfl⟩
  unfold getAttendanceByStudent
  rw [key, attendanceFor_markAttendance_same]
  rfl

theorem attendanceFor_runMarks_length_le (calls : List MarkCall) :
    ∀ db : Db, (∀ s d, (attendanceFor db s d).length ≤ 1) →
      ∀ s d, (attendanceFor (runMarks db calls) s d).length ≤ 1 := by
  induction calls with
  | nil => intro db h; exact h
  | cons c cs ih =>
    intro db h
    apply ih
    intro s d
    by_cases hk : s = c.studentId ∧ d = c.date
    · obtain ⟨rfl, rfl⟩ := hk
      rw [attendanceFor_markAttendance_same]
      simp
    · rw [attendanceFor_markAttendance_other _ _ _ _ _ _ _ _ hk]
      exact h s d

/-- C2: in every database reached from the empty attendance table by a finite sequence of
`markAttendance` calls, each (student_id, date) pair has at most one attendance row. -/
theorem attendance_unique_per_student_date (calls : List MarkCall) (s : Int) (d : String) :
    ((runMarks emptyDb calls).attendance.filter
      (fun a => a.student_id == s && a.date == d)).length ≤ 1 :=
  attendanceFor_runMarks_length_le calls emptyDb (fun _ _ => by simp [attendanceFor, emptyDb]) s d

/-! ## Sorting: `ORDER BY` commutes with row selection -/

theorem orderedInsert_of_forall_rel {α : Type} (r : α → α → Prop) [DecidableRel r] (a : α) :
    ∀ l : List α, (∀ x ∈ l, r a x) → l.orderedInsert r a = a :: l
  | [], _ => rfl
  | b :: l, h => List.orderedInsert_of_le r l (h b (List.mem_cons_self b l))

theorem filter_orderedInsert {α : Type} (r : α → α → Prop) [DecidableRel r] [IsTrans α r]
    (p : α → Bool) (a : α) :
    ∀ l : List α, l.Sorted r →
      (l.orderedInsert r a).filter p =
        if p a = true then (l.filter p).orderedInsert r a else l.filter p := by
  intro l
  induction l with
  | nil => intro _; by_cases hp : p a = true <;> simp [hp]
  | cons b l ih =>
    intro hs
    have hbl : ∀ x ∈ l, r b x := List.rel_of_sorted_cons hs
    by_cases hab : r a b
    · have hall : ∀ x ∈ (b :: l).filter p, r a x := by
        intro x hx
        rcases List.mem_cons.1 (List.mem_of_mem_filter hx) with rfl | hxl
        · exact hab
        · exact IsTrans.trans _ _ _ hab (hbl x hxl)
      rw [List.orderedInsert_of_le r l hab, orderedInsert_of_forall_rel r a _ hall]
      by_cases hp : p a = true <;> simp [hp]
    · have hrec := ih hs.of_cons
      by_cases hpb : p b = true
      · by_cases hp : p a = true
        · simp only [hp, if_true] at hrec
          simp [List.orderedInsert, hab, hpb, hp, hrec]
        · simp only [hp, if_false] at hrec
          simp [List.orderedInsert, hab, hpb, hp, hrec]
      · by_cases hp : p a = true
        · simp only [hp, if_true] at hrec
          simp [List.orderedInsert, hab, hpb, hp, hrec]
        · simp only [hp, if_false] at hrec
          simp [List.orderedInsert, hab, hpb, hp, hrec]

theorem filter_insertionSort {α : Type} (r : α → α → Prop) [DecidableRel r] [IsTrans α r]
    [IsTotal α r] (p : α → Bool) :
    ∀ l : List α, (l.insertionSort r).filter p = (l.filter p).insertionSort r := by
  intro l
  induction l with
  | nil => simp
  | cons a l ih =>
    have hstep := filter_orderedInsert r p a (l.insertionSort r) (List.sorted_insertionSort r l)
    simp only [List.insertionSort]
    rw [hstep, ih]
    by_cases hp : p a = true
    · simp [hp]
    · simp [hp]

/-! ## Primary keys: student ids stay unique -/

theorem foldl_max_ge (ids : List Int) :
    ∀ a : Int, a ≤ ids.foldl max a ∧ ∀ i ∈ ids, i ≤ ids.foldl max a := by
  induction ids with
  | nil => intro a; simp
  | cons x xs ih =>
    intro a
    obtain ⟨h1, h2⟩ := ih (max a x)
    refine ⟨le_trans (le_max_left a x) h1, ?_⟩
    intro i hi
    rcases List.mem_cons.1 hi with rfl | hi
    · exact le_trans (le_max_right a i) h1
    · exact h2 i hi

theorem nextRowid_not_mem (seq : Int) (ids : List Int) : nextRowid seq ids ∉ ids := by
  intro hmem
  have h1 := (foldl_max_ge ids 0).2 _ hmem
  have h2 : ids.foldl max 0 ≤ max seq (ids.foldl max 0) := le_max_right _ _
  unfold nextRowid at h1
  omega

theorem addStudent_unique_ids (db db1 : Db) (now : String) (sd : StudentData) (r : WriteResult)
    (h : addStudent db now sd = .ok (db1, r)) (hn : (db.students.map (·.id)).Nodup) :
    (db1.students.map (·.id)).Nodup := by
  unfold addStudent at h
  split at h
  · cases h
  · cases h
  · injection h with h
    injection h with h1 _
    subst h1
    simp only [List.map_append, List.map_cons, List.map_nil]
    rw [List.nodup_append]
    refine ⟨hn, List.nodup_singleton _, ?_⟩
    intro i hi hi2
    rw [List.mem_singleton] at hi2
    subst hi2
    exact nextRowid_not_mem _ _ hi

theorem deleteStudent_unique_ids (db : Db) (s : Int) (hn : (db.students.map (·.id)).Nodup) :
    ((deleteStudent db s).1.students.map (·.id)).Nodup :=
  (List.Sublist.map _ (List.filter_sublist db.students)).nodup hn

/-! ## Students: listing and deletion -/

theorem getStudentsByCoach_perm_filter (db : Db) (c : Int) :
    (getStudentsByCoach db c).Perm (db.students.filter (fun s => s.coach_id == c)) :=
  List.perm_insertionSort _ _

theorem getStudentsByCoach_sorted (db : Db) (c : Int) :
    (getStudentsByCoach db c).Sorted (fun a b => a.name ≤ b.name) :=
  List.sorted_insertionSort _ _

/-- C6: `getStudentsByCoach` returns the students of the coach and no others, each as often
as the table holds it (so once, the table having no duplicate rows), in ascending order of
name; the same holds for any other insertion order of the same rows, and the query is a
function of the database, so asking again gives the same sequence. -/
theorem getStudentsByCoach_sorted_exact (db : Db) (c : Int) :
    (getStudentsByCoach db c).Sorted (fun a b => a.name ≤ b.name) ∧
    (getStudentsByCoach db c).Perm (db.students.filter (fun s => s.coach_id == c)) ∧
    (∀ x, x ∈ getStudentsByCoach db c ↔ x ∈ db.students ∧ x.coach_id = c) ∧
    (db.students.Nodup → (getStudentsByCoach db c).Nodup) ∧
    (∀ db2 : Db, db2.students.Perm db.students →
      (getStudentsByCoach db2 c).Sorted (fun a b => a.name ≤ b.name) ∧
      (getStudentsByCoach db2 c).Perm (getStudentsByCoach db c)) := by
  refine ⟨getStudentsByCoach_sorted db c, getStudentsByCoach_perm_filter db c, ?_, ?_, ?_⟩
  · intro x
    rw [(getStudentsByCoach_perm_filter db c).mem_iff]
    simp
  · intro hn
    exact (getStudentsByCoach_perm_filter db c).nodup_iff.2 (hn.filter _)
  · intro db2 hp
    refine ⟨getStudentsByCoach_sorted db2 c, ?_⟩
    exact (getStudentsByCoach_perm_filter db2 c).trans
      ((hp.filter _).trans (getStudentsByCoach_perm_filter db c).symm)

theorem getStudentsByCoach_sorted_exact_witness :
    (getStudentsByCoach dbRoster 1).Nodup ∧
      (getStudentsByCoach dbRosterSwapped 1).Sorted (fun a b => a.name ≤ b.name) ∧
      (getStudentsByCoach dbRosterSwapped 1).Perm (getStudentsByCoach dbRoster 1) :=
  ⟨(getStudentsByCoach_sorted_exact dbRoster 1).2.2.2.1 (by decide),
    (getStudentsByCoach_sorted_exact dbRoster 1).2.2.2.2 dbRosterSwapped
      (List.Perm.swap _ _ _)⟩

/-- C7: after `deleteStudent(s)` the list of any coach is the former list without the rows
of id `s`, in the same order: `s` is gone, every other student is still there unchanged.
The delete is unconditional (the function is total) and leaves the attendance and payment
tables as they were. -/
theorem deleteStudent_removes_only_that_student (db : Db) (s c : Int) :
    getStudentsByCoach (deleteStudent db s).1 c =
        (getStudentsByCoach db c).filter (fun x => !(x.id == s)) ∧
    (∀ x ∈ getStudentsByCoach (deleteStudent db s).1 c, x.id ≠ s) ∧
    (∀ x ∈ getStudentsByCoach db c, x.id ≠ s → x ∈ getStudentsByCoach (deleteStudent db s).1 c) ∧
    (deleteStudent db s).2.rowsAffected = (db.students.filter (fun x => x.id == s)).length ∧
    (deleteStudent db s).1.attendance = db.attendance ∧
    (deleteStudent db s).1.payments = db.payments := by
  have heq : getStudentsByCoach (deleteStudent db s).1 c =
      (getStudentsByCoach db c).filter (fun x => !(x.id == s)) := by
    unfold getStudentsByCoach deleteStudent
    rw [filter_insertionSort]
    congr 1
    simp only [List.filter_filter]
    apply List.filter_congr
    intro x _
    exact Bool.and_comm _ _
  refine ⟨heq, ?_, ?_, rfl, rfl, rfl⟩
  · intro x hx
    rw [heq] at hx
    simpa using (List.mem_filter.1 hx).2
  · intro x hx hne
    rw [heq]
    exact List.mem_filter.2 ⟨hx, by simpa using hne⟩

/-! ## Payments: the monthly summary -/

theorem joinRow_eq (students : List Student) (hn : (students.map (·.id)).Nodup) (c : Int)
    (m : String) (p : Payment) :
    ((((students.filter (fun s => p.student_id == s.id)).map (fun s => (p, s))).filter
        (fun ps : Payment × Student => ps.2.coach_id == c &&
          (strftimeYm ps.1.payment_date == some m && ps.1.status == some "completed"))).map
      Prod.fst) =
      if (p.status == some "completed" && (strftimeYm p.payment_date == some m &&
          students.any (fun s => s.id == p.student_id && s.coach_id == c))) = true
      then [p] else [] := by
  induction students with
  | nil => simp
  | cons s ss ih =>
    rw [List.map_cons, List.nodup_cons] at hn
    by_cases hid : p.student_id = s.id
    · have hnone : ∀ t ∈ ss, ¬ (p.student_id = t.id) := by
        intro t ht heq
        exact hn.1 (List.mem_map.2 ⟨t, ht, by rw [← heq, hid]⟩)
      have hfil : ss.filter (fun t => p.student_id == t.id) = [] := by
        rw [List.filter_eq_nil_iff]
        intro t ht
        simpa using hnone t ht
      have hany : ss.any (fun t => t.id == p.student_id && t.coach_id == c) = false := by
        rw [List.any_eq_false]
        intro t ht
        have hne : ¬ (t.id = p.student_id) := fun h => hnone t ht h.symm
        simp [hne]
      have hhead : (p.student_id == s.id) = true := by simp [hid]
      have hhead2 : (s.id == p.student_id) = true := by simp [hid]
      rw [List.filter_cons, List.any_cons, hfil, hany, hhead, hhead2]
      by_cases hc : s.coach_id = c <;>
        by_cases hm : strftimeYm p.payment_date = some m <;>
        by_cases hst : p.status = some "completed" <;> simp [hc, hm, hst]
    · have hid2 : ¬ (s.id = p.student_id) := fun h => hid h.symm
      have hhead : (p.student_id == s.id) = false := by simp [hid]
      have hhead2 : (s.id == p.student_id) = false := by simp [hid2]
      rw [List.filter_cons, List.any_cons, hhead, hhead2]
      simpa using ih hn.2

theorem paymentSummaryRows_fst (db : Db) (hn : (db.students.map (·.id)).Nodup) (c : Int)
    (m : String) :
    (paymentSummaryRows db c m).map Prod.fst = completedPaymentsIn db c m := by
  unfold paymentSummaryRows paymentsJoinStudents completedPaymentsIn paymentOfCoach
  rw [List.filter_flatMap, List.map_flatMap]
  induction db.payments with
  | nil => simp
  | cons p ps ih =>
    rw [List.flatMap_cons, ih, joinRow_eq db.students hn c m p, List.filter_cons]
    split <;> simp

theorem getPaymentSummary_eq (db : Db) (c : Int) (m : String) :
    getPaymentSummary db c m =
      ⟨sqlSum ((paymentSummaryRows db c m).map (fun ps => ps.1.amount)),
        (paymentSummaryRows db c m).length⟩ := rfl

theorem getPaymentSummary_spec (db : Db) (hn : (db.students.map (·.id)).Nodup) (c : Int)
    (m : String) :
    getPaymentSummary db c m =
      ⟨sqlSum ((completedPaymentsIn db c m).map (·.amount)),
        (completedPaymentsIn db c m).length⟩ := by
  rw [getPaymentSummary_eq, ← paymentSummaryRows_fst db hn c m]
  simp [List.map_map, Function.comp_def]

theorem foldl_add_fin (qs : List ℚ) :
    ∀ acc : ℚ, (qs.map JsNumber.fin).foldl JsNumber.add (.fin acc) = .fin (acc + qs.sum) := by
  induction qs with
  | nil => intro acc; simp
  | cons q qs ih =>
    intro acc
    simp only [List.map_cons, List.foldl_cons, JsNumber.add, List.sum_cons]
    rw [ih, add_assoc]

theorem sqlSum_fin (qs : List ℚ) (h : qs ≠ []) :
    sqlSum (qs.map JsNumber.fin) = some (.fin qs.sum) := by
  cases qs with
  | nil => exact absurd rfl h
  | cons q qs =>
    show bindReal (((q :: qs).map JsNumber.fin).foldl JsNumber.add (.fin 0)) = _
    rw [foldl_add_fin, zero_add]
    rfl

theorem getPaymentSummary_of_no_rows (db : Db) (c : Int) (m : String)
    (h : paymentSummaryRows db c m = []) :
    getPaymentSummary db c m = ⟨none, 0⟩ := by
  rw [getPaymentSummary_eq, h]
  rfl

/-- C3: what `getPaymentSummary` returns when no completed payment of the coach's students
matches the month: the aggregate query still yields its one row, so the fallback
`{ total: 0, count: 0 }` is never taken and `total` is `NULL`, not the number 0. -/
theorem getPaymentSummary_no_match_total_null (db : Db) (c : Int) (m : String)
    (hn : (db.students.map (·.id)).Nodup) (h : completedPaymentsIn db c m = []) :
    getPaymentSummary db c m = ⟨none, 0⟩ ∧
      (getPaymentSummary db c m).total ≠ some (.fin 0) := by
  have hrows : paymentSummaryRows db c m = [] := by
    have := paymentSummaryRows_fst db hn c m
    rw [h] at this
    exact List.map_eq_nil_iff.1 this
  rw [getPaymentSummary_of_no_rows db c m hrows]
  exact ⟨rfl, by simp⟩

theorem getPaymentSummary_no_match_total_null_witness :
    getPaymentSummary emptyDb 1 "2024-03" = ⟨none, 0⟩ ∧
      (getPaymentSummary emptyDb 1 "2024-03").total ≠ some (.fin 0) :=
  getPaymentSummary_no_match_total_null emptyDb 1 "2024-03" (by decide) (by decide)

/-- C5: with unique student ids and at least one payment selected, the count of
`getPaymentSummary` is the number, and its total the sum of the amounts, of exactly the
payments that are completed, dated in the month and owned by a student of the coach;
nothing else (a pending payment, another coach's payment) enters either figure. -/
theorem getPaymentSummary_counts_completed_of_coach (db : Db) (c : Int) (m : String)
    (hn : (db.students.map (·.id)).Nodup) (hsel : completedPaymentsIn db c m ≠ []) :
    (getPaymentSummary db c m).count = (completedPaymentsIn db c m).length ∧
    (getPaymentSummary db c m).total =
      bindReal (((completedPaymentsIn db c m).map (·.amount)).foldl JsNumber.add (.fin 0)) ∧
    (∀ qs : List ℚ, (completedPaymentsIn db c m).map (·.amount) = qs.map JsNumber.fin →
      (getPaymentSummary db c m).total = some (.fin qs.sum)) ∧
    (∀ p, p ∈ completedPaymentsIn db c m ↔
      p ∈ db.payments ∧ p.status = some "completed" ∧ strftimeYm p.payment_date = some m ∧
        ∃ s ∈ db.students, s.id = p.student_id ∧ s.coach_id = c) := by
  rw [getPaymentSummary_spec db hn c m]
  refine ⟨rfl, ?_, ?_, ?_⟩
  · show sqlSum _ = _
    cases hl : (completedPaymentsIn db c m).map (·.amount) with
    | nil => exact absurd (List.map_eq_nil_iff.1 hl) hsel
    | cons x xs => rfl
  · intro qs hqs
    show sqlSum _ = _
    rw [hqs]
    apply sqlSum_fin
    intro hq
    rw [hq] at hqs
    exact hsel (List.map_eq_nil_iff.1 hqs)
  · intro p
    simp [completedPaymentsIn, paymentOfCoach, List.mem_filter]

theorem getPaymentSummary_counts_completed_of_coach_witness :
    (getPaymentSummary dbMarch 1 "2024-03").count = 1 ∧
      (getPaymentSummary dbMarch 1 "2024-03").total = some (.fin 1000) := by
  have h := getPaymentSummary_counts_completed_of_coach dbMarch 1 "2024-03"
    (by decide) (by decide)
  exact ⟨h.1.trans (by decide), (h.2.2.1 [1000] (by decide)).trans (by simp)⟩

theorem paymentOfCoach_iff (db : Db) (c : Int) (p : Payment) :
    paymentOfCoach db c p = true ↔ ∃ s ∈ db.students, s.id = p.student_id ∧ s.coach_id = c := by
  simp [paymentOfCoach]

theorem addPayment_fin (db : Db) (now : String) (sid : Int) (a : ℚ)
    (pm st tag nt tx : Option String) :
    ∃ db1 r, addPayment db now ⟨some sid, some (.fin a), pm, st, tag, nt, tx⟩ = .ok (db1, r) ∧
      db1.students = db.students ∧
      db1.payments = db.payments ++
        [⟨nextRowid db.paymentsSeq (db.payments.map (·.id)), sid, .fin a, now, pm, st, tag, nt,
          tx, now⟩] :=
  ⟨_, _, rfl, rfl, rfl⟩

theorem completedPaymentsIn_eq (db db1 : Db) (hs : db1.students = db.students) (c : Int)
    (m : String) :
    completedPaymentsIn db1 c m = db1.payments.filter (fun p =>
      p.status == some "completed" &&
        (strftimeYm p.payment_date == some m && paymentOfCoach db c p)) := by
  unfold completedPaymentsIn paymentOfCoach
  rw [hs]

/-- C4 (as amended): when the only payments of the coach's students are two completed
payments created by `addPayment` at times whose year and month are `M`, the summary for
`M` has total `a1 + a2` and count 2, whatever month tag the payments carry: a payment is
assigned to a month by its `payment_date`, not by its `month` tag. -/
theorem getPaymentSummary_two_payments_by_payment_date (db : Db) (c : Int) (M : String)
    (s1 s2 : Int) (a1 a2 : ℚ) (now1 now2 : String)
    (pm1 pm2 tag1 tag2 nt1 nt2 tx1 tx2 : Option String)
    (hn : (db.students.map (·.id)).Nodup)
    (hnone : ∀ p ∈ db.payments, paymentOfCoach db c p = false)
    (hs1 : ∃ st ∈ db.students, st.id = s1 ∧ st.coach_id = c)
    (hs2 : ∃ st ∈ db.students, st.id = s2 ∧ st.coach_id = c)
    (hm1 : strftimeYm now1 = some M) (hm2 : strftimeYm now2 = some M) :
    ∃ db1 r1 db2 r2,
      addPayment db now1 ⟨some s1, some (.fin a1), pm1, some "completed", tag1, nt1, tx1⟩ =
        .ok (db1, r1) ∧
      addPayment db1 now2 ⟨some s2, some (.fin a2), pm2, some "completed", tag2, nt2, tx2⟩ =
        .ok (db2, r2) ∧
      getPaymentSummary db2 c M = ⟨some (.fin (a1 + a2)), 2⟩ := by
  obtain ⟨db1, r1, hadd1, hst1, hpay1⟩ :=
    addPayment_fin db now1 s1 a1 pm1 (some "completed") tag1 nt1 tx1
  obtain ⟨db2, r2, hadd2, hst2, hpay2⟩ :=
    addPayment_fin db1 now2 s2 a2 pm2 (some "completed") tag2 nt2 tx2
  refine ⟨db1, r1, db2, r2, hadd1, hadd2, ?_⟩
  have hstu : db2.students = db.students := hst2.trans hst1
  rw [getPaymentSummary_spec db2 (by rw [hstu]; exact hn),
    completedPaymentsIn_eq db db2 hstu, hpay2, hpay1]
  have hc1 : ∀ p : Payment, p.student_id = s1 → paymentOfCoach db c p = true := by
    intro p hp
    rw [paymentOfCoach_iff]
    obtain ⟨st, hst, h1, h2⟩ := hs1
    exact ⟨st, hst, by rw [h1, hp], h2⟩
  have hc2 : ∀ p : Payment, p.student_id = s2 → paymentOfCoach db c p = true := by
    intro p hp
    rw [paymentOfCoach_iff]
    obtain ⟨st, hst, h1, h2⟩ := hs2
    exact ⟨st, hst, by rw [h1, hp], h2⟩
  have hold : db.payments.filter (fun p =>
      p.status == some "completed" &&
        (strftimeYm p.payment_date == some M && paymentOfCoach db c p)) = [] := by
    rw [List.filter_eq_nil_iff]
    intro p hp
    simp [hnone p hp]
  rw [List.filter_append, List.filter_append, hold, List.nil_append,
    List.filter_cons_of_pos (by simp [hm1, hc1]), List.filter_cons_of_pos (by simp [hm2, hc2])]
  simp [sqlSum, JsNumber.add, bindReal]

theorem getPaymentSummary_two_payments_by_payment_date_witness :
    ∃ db1 r1 db2 r2,
      addPayment dbOneStudent "2024-03-15 10:00:00"
          ⟨some 5, some (.fin 1000), some "cash", some "completed", some "2024-03", some "",
            some "TXN-1"⟩ = .ok (db1, r1) ∧
        addPayment db1 "2024-03-20 18:30:00"
          ⟨some 5, some (.fin 1000), some "cash", some "completed", some "2024-03", some "",
            some "TXN-2"⟩ = .ok (db2, r2) ∧
        getPaymentSummary db2 1 "2024-03" = ⟨some (.fin (1000 + 1000)), 2⟩ :=
  getPaymentSummary_two_payments_by_payment_date dbOneStudent 1 "2024-03" 5 5 1000 1000
    "2024-03-15 10:00:00" "2024-03-20 18:30:00" (some "cash") (some "cash") (some "2024-03")
    (some "2024-03") (some "") (some "") (some "TXN-1") (some "TXN-2")
    (by decide) (by decide) (by decide) (by decide) (by decide) (by decide)

/-- C4 (counterexample): student 5 of coach 1 pays 1000 twice, both payments completed and
tagged `2024-03` but recorded in November 2026; the summary of coach 1 for `2024-03` is
then `{ total: NULL, count: 0 }`, not `{ total: 2000, count: 2 }`. -/
theorem getPaymentSummary_ignores_month_tag :
    summaryAfterTwoPayments "2026-11-06 10:00:00" "2024-03" "2024-03" = .ok ⟨none, 0⟩ ∧
      summaryAfterTwoPayments "2026-11-06 10:00:00" "2024-03" "2024-03" ≠
        .ok ⟨some (.fin (1000 + 1000)), 2⟩ := by
  have h : summaryAfterTwoPayments "2026-11-06 10:00:00" "2024-03" "2024-03" = .ok ⟨none, 0⟩ := by
    rfl
  rw [h]
  exact ⟨rfl, by simp⟩

/-! ## The add-student path -/

theorem bindReal_orZero (x : JsNumber) : bindReal (orZero x) = some (orZero x) := by
  cases x with
  | nan => rfl
  | inf b => rfl
  | fin q =>
    by_cases hq : q = 0
    · simp [orZero, hq, bindReal]
    · simp [orZero, hq, bindReal]

theorem orZero_of_ne_nan (x : JsNumber) (h : x ≠ .nan) : orZero x = x := by
  cases x with
  | nan => exact absurd rfl h
  | inf b => rfl
  | fin q =>
    by_cases hq : q = 0
    · simp [orZero, hq]
    · simp [orZero, hq]

theorem handleSubmit_valid (db : Db) (now : String) (cid : Option Int) (f : FormData)
    (hv : validateForm f = true) :
    ∃ db1 r st, handleSubmit db now cid f = .ok (db1, r) ∧
      db1.students = db.students ++ [st] ∧ r.insertId = some st.id ∧
      st.coach_id = coachIdOr1 cid ∧ st.name = jsTrim f.name ∧ st.status = some "active" ∧
      st.monthly_fee = some (orZero (parseFloat f.monthly_fee)) := by
  refine ⟨{ db with
      students := db.students ++ [⟨nextRowid db.studentsSeq (db.students.map (·.id)),
        coachIdOr1 cid, jsTrim f.name, trimOrNull f.email, trimOrNull f.phone,
        trimOrNull f.sport_or_subject, trimOrNull f.batch, now, some "active",
        some (orZero (parseFloat f.monthly_fee)), now⟩]
      studentsSeq := nextRowid db.studentsSeq (db.students.map (·.id)) },
    ⟨some (nextRowid db.studentsSeq (db.students.map (·.id))), 1⟩,
    ⟨nextRowid db.studentsSeq (db.students.map (·.id)), coachIdOr1 cid,
      jsTrim f.name, trimOrNull f.email, trimOrNull f.phone, trimOrNull f.sport_or_subject,
      trimOrNull f.batch, now, some "active", some (orZero (parseFloat f.monthly_fee)), now⟩,
    ?_, rfl, rfl, rfl, rfl, rfl, rfl⟩
  simp only [handleSubmit, hv, if_true, addStudent, studentDataOfForm, Option.bind,
    bindReal_orZero]

theorem handleSubmit_invalid (db : Db) (now : String) (cid : Option Int) (f : FormData)
    (hv : validateForm f = false) :
    handleSubmit db now cid f = .error .invalidForm := by
  simp [handleSubmit, hv]

/-- C8 (as amended): when the form passes `validateForm` (name not blank, email empty or
with an `@`) and the fee text parses to a number `x`, the submission succeeds and the list
of the coach (`coach?.id || 1`, which is `c` for a coach id `c ≠ 0`) contains the new
student with the trimmed name, that coach id, `monthly_fee = x` and status `active`. -/
theorem handleSubmit_then_listed (db : Db) (now : String) (cid : Option Int) (f : FormData)
    (x : JsNumber) (hv : validateForm f = true) (hx : parseFloat f.monthly_fee = x)
    (hnum : x ≠ .nan) :
    (∀ c : Int, cid = some c → c ≠ 0 → coachIdOr1 cid = c) ∧
    ∃ db1 r st, handleSubmit db now cid f = .ok (db1, r) ∧
      st ∈ getStudentsByCoach db1 (coachIdOr1 cid) ∧ r.insertId = some st.id ∧
      st.name = jsTrim f.name ∧ st.coach_id = coachIdOr1 cid ∧ st.monthly_fee = some x ∧
      st.status = some "active" := by
  constructor
  · intro c hc hne
    subst hc
    simp [coachIdOr1, hne]
  · obtain ⟨db1, r, st, hok, hstu, hid, hcoach, hname, hstatus, hfee⟩ :=
      handleSubmit_valid db now cid f hv
    refine ⟨db1, r, st, hok, ?_, hid, hname, hcoach, ?_, hstatus⟩
    · rw [(getStudentsByCoach_perm_filter db1 (coachIdOr1 cid)).mem_iff, List.mem_filter, hstu]
      exact ⟨by simp, by simp [hcoach]⟩
    · rw [hfee, hx, orZero_of_ne_nan x hnum]

theorem handleSubmit_then_listed_witness :
    ∃ db1 r st,
      handleSubmit emptyDb "2024-03-01 09:00:00" (some 1) ⟨"Asha", "", "", "", "", "1500"⟩ =
        .ok (db1, r) ∧
      st ∈ getStudentsByCoach db1 (coachIdOr1 (some 1)) ∧ r.insertId = some st.id ∧
      st.name = jsTrim "Asha" ∧ st.coach_id = coachIdOr1 (some 1) ∧
      st.monthly_fee = some (.fin 1500) ∧ st.status = some "active" :=
  (handleSubmit_then_listed emptyDb "2024-03-01 09:00:00" (some 1)
    ⟨"Asha", "", "", "", "", "1500"⟩ (.fin 1500) (by decide) (by decide) (by decide)).2

/-- C8 (counterexample): with the fee text `1500`, a blank name is refused by
`validateForm` and nothing is listed; the name `" Asha"` is stored trimmed, so the list
holds a student named `"Asha"` and none named `" Asha"`. -/
theorem handleSubmit_name_blank_or_padded :
    studentsAfterSubmit ⟨"", "", "", "", "", "1500"⟩ = none ∧
      (studentsAfterSubmit ⟨" Asha", "", "", "", "", "1500"⟩).map (List.map (·.name)) =
        some ["Asha"] ∧
      " Asha" ∉ ["Asha"] := by
  refine ⟨by rfl, by rfl, by decide⟩

/-- C9: when the fee text is empty (the untouched field) or does not parse as a number,
an accepted submission stores the student with `monthly_fee = 0`. -/
theorem handleSubmit_unparsable_fee_is_zero (db : Db) (now : String) (cid : Option Int)
    (f : FormData) (hv : validateForm f = true) (hnan : parseFloat f.monthly_fee = .nan) :
    ∃ db1 r st, handleSubmit db now cid f = .ok (db1, r) ∧
      db1.students = db.students ++ [st] ∧ r.insertId = some st.id ∧
      st.monthly_fee = some (.fin 0) := by
  obtain ⟨db1, r, st, hok, hstu, hid, _, _, _, hfee⟩ := handleSubmit_valid db now cid f hv
  refine ⟨db1, r, st, hok, hstu, hid, ?_⟩
  rw [hfee, hnan]
  rfl

theorem handleSubmit_unparsable_fee_is_zero_witness :
    (∃ db1 r st,
      handleSubmit emptyDb "2024-03-01 09:00:00" (some 1) ⟨"Asha", "", "", "", "", ""⟩ =
        .ok (db1, r) ∧
      db1.students = emptyDb.students ++ [st] ∧ r.insertId = some st.id ∧
      st.monthly_fee = some (.fin 0)) ∧
    (∃ db1 r st,
      handleSubmit emptyDb "2024-03-01 09:00:00" (some 1) ⟨"Asha", "", "", "", "", "abc"⟩ =
        .ok (db1, r) ∧
      db1.students = emptyDb.students ++ [st] ∧ r.insertId = some st.id ∧
      st.monthly_fee = some (.fin 0)) :=
  ⟨handleSubmit_unparsable_fee_is_zero emptyDb "2024-03-01 09:00:00" (some 1)
      ⟨"Asha", "", "", "", "", ""⟩ (by decide) (by decide),
    handleSubmit_unparsable_fee_is_zero emptyDb "2024-03-01 09:00:00" (some 1)
      ⟨"Asha", "", "", "", "", "abc"⟩ (by decide) (by decide)⟩

/-- C10 (counterexample): the form with name `Asha` and fee text `-5` is accepted and the
student is stored with `monthly_fee = -5`, which is negative. -/
theorem handleSubmit_stores_negative_fee :
    (studentsAfterSubmit ⟨"Asha", "", "", "", "", "-5"⟩).map (List.map (·.monthly_fee)) =
        some [some (.fin (-5))] ∧
      (JsNumber.fin (-5)).nonneg = false := by
  refine ⟨by rfl, by decide⟩

/-- C10 (as amended): for every form input, either the submission is rejected, or the
student is stored with the parsed fee (0 when the text does not parse), and that fee is
non-negative unless the fee text parses to a negative number. -/
theorem handleSubmit_fee_nonneg_unless_negative_input (db : Db) (now : String)
    (cid : Option Int) (f : FormData) :
    handleSubmit db now cid f = .error .invalidForm ∨
    ∃ db1 r st, handleSubmit db now cid f = .ok (db1, r) ∧
      db1.students = db.students ++ [st] ∧
      st.monthly_fee = some (orZero (parseFloat f.monthly_fee)) ∧
      ((orZero (parseFloat f.monthly_fee)).nonneg = true ∨
        (parseFloat f.monthly_fee).isNegative = true) := by
  by_cases hv : validateForm f = true
  · right
    obtain ⟨db1, r, st, hok, hstu, _, _, _, _, hfee⟩ := handleSubmit_valid db now cid f hv
    refine ⟨db1, r, st, hok, hstu, hfee, ?_⟩
    cases hp : parseFloat f.monthly_fee with
    | nan => left; simp [orZero, JsNumber.nonneg]
    | inf b => cases b <;> simp [orZero, JsNumber.nonneg, JsNumber.isNegative]
    | fin q =>
      by_cases hq : q = 0
      · left; simp [orZero, JsNumber.nonneg, hq]
      · simp only [orZero, hq, if_false, JsNumber.nonneg, JsNumber.isNegative,
          decide_eq_true_eq]
        exact le_or_lt 0 q
  · left
    exact handleSubmit_invalid db now cid f (by simpa using hv)

/-! ## The record-payment path -/

theorem handleAddPayment_valid (db : Db) (now : String) (dateNow : Nat) (f : PaymentForm)
    (sid : Int) (h1 : f.student_id.isEmpty = false) (h2 : f.amount.isEmpty = false)
    (h3 : parseInt f.student_id = some sid) (h4 : parseFloat f.amount ≠ .nan) :
    ∃ db1 r row, handleAddPayment db now dateNow f = .ok (db1, r) ∧
      db1.payments = db.payments ++ [row] ∧ row.student_id = sid ∧
      row.amount = parseFloat f.amount ∧ row.status = some "completed" := by
  have hb : bindReal (parseFloat f.amount) = some (parseFloat f.amount) := by
    cases hp : parseFloat f.amount with
    | nan => exact absurd hp h4
    | inf b => rfl
    | fin q => rfl
  refine ⟨{ db with
      payments := db.payments ++ [⟨nextRowid db.paymentsSeq (db.payments.map (·.id)), sid,
        parseFloat f.amount, now, some f.payment_method, some "completed", some f.month,
        some f.notes, some ("TXN-" ++ toString dateNow), now⟩]
      paymentsSeq := nextRowid db.paymentsSeq (db.payments.map (·.id)) },
    ⟨some (nextRowid db.paymentsSeq (db.payments.map (·.id))), 1⟩,
    ⟨nextRowid db.paymentsSeq (db.payments.map (·.id)), sid, parseFloat f.amount,
      now, some f.payment_method, some "completed", some f.month, some f.notes,
      some ("TXN-" ++ toString dateNow), now⟩, ?_, rfl, rfl, rfl, rfl⟩
  simp only [handleAddPayment, h1, h2, Bool.or_self, Bool.false_eq_true, if_false, addPayment,
    paymentDataOfForm, h3, Option.bind, hb]

/-- C11 (as amended): when the amount text is empty or does not parse to a number, the
record-payment path fails and no payment row is inserted.  (The sign of the amount is
not looked at.) -/
theorem handleAddPayment_rejects_non_numeric_amount (db : Db) (now : String) (dateNow : Nat)
    (f : PaymentForm) (h : f.amount = "" ∨ parseFloat f.amount = .nan) :
    ∃ e, handleAddPayment db now dateNow f = .error e := by
  unfold handleAddPayment
  by_cases hg : (f.student_id.isEmpty || f.amount.isEmpty) = true
  · exact ⟨.invalidForm, by simp [hg]⟩
  · have hnan : parseFloat f.amount = .nan := by
      rcases h with h | h
      · exfalso
        apply hg
        rw [h]
        simp [show "".isEmpty = true from rfl]
      · exact h
    simp only [hg, if_false, addPayment, paymentDataOfForm, hnan, Option.bind, bindReal]
    cases parseInt f.student_id with
    | none => exact ⟨_, rfl⟩
    | some sid => exact ⟨_, rfl⟩

theorem handleAddPayment_rejects_non_numeric_amount_witness :
    (∃ e, handleAddPayment dbOneStudent "2024-03-05 10:00:00" 1709632800000
      ⟨"5", "abc", "cash", "2024-03", ""⟩ = .error e) ∧
    (∃ e, handleAddPayment dbOneStudent "2024-03-05 10:00:00" 1709632800000
      ⟨"5", "", "cash", "2024-03", ""⟩ = .error e) :=
  ⟨handleAddPayment_rejects_non_numeric_amount dbOneStudent "2024-03-05 10:00:00"
      1709632800000 ⟨"5", "abc", "cash", "2024-03", ""⟩ (Or.inr (by decide)),
    handleAddPayment_rejects_non_numeric_amount dbOneStudent "2024-03-05 10:00:00"
      1709632800000 ⟨"5", "", "cash", "2024-03", ""⟩ (Or.inl rfl)⟩

/-- C11 (counterexample): the payment form with student `5` and amount text `-5` is
accepted, and the payment is inserted with the negative amount `-5`. -/
theorem handleAddPayment_stores_negative_amount :
    (paymentsAfterSubmit ⟨"5", "-5", "cash", "2024-03", ""⟩).map (List.map (·.amount)) =
        some [.fin (-5)] ∧
      (JsNumber.fin (-5)).isNegative = true := by
  refine ⟨by rfl, by decide⟩

/-! ## Dates: a calendar date is dated in the month it names -/

theorem isDigit_bounds (c : Char) (h : c.isDigit = true) : 48 ≤ c.toNat ∧ c.toNat ≤ 57 := by
  unfold Char.isDigit at h
  simp only [Bool.and_eq_true, decide_eq_true_eq, ge_iff_le] at h
  exact ⟨h.1, h.2⟩

theorem ofNat_digit (c : Char) (k : Nat) (h : c.toNat = 48 + k) : Char.ofNat (48 + k) = c := by
  rw [← h]
  exact Char.ofNat_toNat c


theorem digitsValue_two (a b : Char) :
    digitsValue [a, b] = 10 * (a.toNat - 48) + (b.toNat - 48) := by
  simp [digitsValue]

theorem digitsValue_four (a b c d : Char) :
    digitsValue [a, b, c, d] =
      10 * (10 * (10 * (a.toNat - 48) + (b.toNat - 48)) + (c.toNat - 48)) + (d.toNat - 48) := by
  simp [digitsValue]

theorem pad2_digits (a b : Char) (ha : a.isDigit = true) (hb : b.isDigit = true) :
    pad2 (digitsValue [a, b]) = [a, b] := by
  obtain ⟨ha1, ha2⟩ := isDigit_bounds a ha
  obtain ⟨hb1, hb2⟩ := isDigit_bounds b hb
  rw [digitsValue_two]
  unfold pad2
  have h1 : (10 * (a.toNat - 48) + (b.toNat - 48)) / 10 % 10 = a.toNat - 48 := by omega
  have h2 : (10 * (a.toNat - 48) + (b.toNat - 48)) % 10 = b.toNat - 48 := by omega
  rw [h1, h2, ofNat_digit a _ (by omega), ofNat_digit b _ (by omega)]

theorem padYear_digits (a b c d : Char) (ha : a.isDigit = true) (hb : b.isDigit = true)
    (hc : c.isDigit = true) (hd : d.isDigit = true) :
    padYear (digitsValue [a, b, c, d] : Nat) = [a, b, c, d] := by
  obtain ⟨ha1, ha2⟩ := isDigit_bounds a ha
  obtain ⟨hb1, hb2⟩ := isDigit_bounds b hb
  obtain ⟨hc1, hc2⟩ := isDigit_bounds c hc
  obtain ⟨hd1, hd2⟩ := isDigit_bounds d hd
  rw [digitsValue_four]
  unfold padYear pad2
  have hneg : ¬ (((10 * (10 * (10 * (a.toNat - 48) + (b.toNat - 48)) + (c.toNat - 48)) +
      (d.toNat - 48) : Nat) : Int) < 0) := by omega
  rw [if_neg hneg, Int.toNat_ofNat]
  have h1 : (10 * (10 * (10 * (a.toNat - 48) + (b.toNat - 48)) + (c.toNat - 48)) +
      (d.toNat - 48)) / 100 / 10 % 10 = a.toNat - 48 := by omega
  have h2 : (10 * (10 * (10 * (a.toNat - 48) + (b.toNat - 48)) + (c.toNat - 48)) +
      (d.toNat - 48)) / 100 % 10 = b.toNat - 48 := by omega
  have h3 : (10 * (10 * (10 * (a.toNat - 48) + (b.toNat - 48)) + (c.toNat - 48)) +
      (d.toNat - 48)) / 10 % 10 = c.toNat - 48 := by omega
  have h4 : (10 * (10 * (10 * (a.toNat - 48) + (b.toNat - 48)) + (c.toNat - 48)) +
      (d.toNat - 48)) % 10 = d.toNat - 48 := by omega
  rw [h1, h2, h3, h4, ofNat_digit a _ (by omega), ofNat_digit b _ (by omega),
    ofNat_digit c _ (by omega), ofNat_digit d _ (by omega)]
  rfl

theorem getDigits_two (lo hi : Nat) (a b : Char) (r : List Char) (ha : a.isDigit = true)
    (hb : b.isDigit = true) (h1 : lo ≤ digitsValue [a, b]) (h2 : digitsValue [a, b] ≤ hi) :
    getDigits 2 lo hi (a :: b :: r) = some (digitsValue [a, b], r) := by
  simp [getDigits, ha, hb, h1, h2]

theorem getDigits_four (a b c d : Char) (r : List Char) (ha : a.isDigit = true)
    (hb : b.isDigit = true) (hc : c.isDigit = true) (hd : d.isDigit = true) :
    getDigits 4 0 9999 (a :: b :: c :: d :: r) = some (digitsValue [a, b, c, d], r) := by
  obtain ⟨ha1, ha2⟩ := isDigit_bounds a ha
  obtain ⟨hb1, hb2⟩ := isDigit_bounds b hb
  obtain ⟨hc1, hc2⟩ := isDigit_bounds c hc
  obtain ⟨hd1, hd2⟩ := isDigit_bounds d hd
  have hle : digitsValue [a, b, c, d] ≤ 9999 := by
    rw [digitsValue_four]
    omega
  simp [getDigits, ha, hb, hc, hd, hle]

/-- On a calendar date text `YYYY-MM-DD` (month 01 to 12, a day that exists in the month)
`strftime('%Y-%m', x)` is the first seven characters of the text. -/
theorem strftimeYm_calendar_date (y1 y2 y3 y4 m1 m2 d1 d2 : Char)
    (hy1 : y1.isDigit = true) (hy2 : y2.isDigit = true) (hy3 : y3.isDigit = true)
    (hy4 : y4.isDigit = true) (hm1 : m1.isDigit = true) (hm2 : m2.isDigit = true)
    (hd1 : d1.isDigit = true) (hd2 : d2.isDigit = true)
    (hmlo : 1 ≤ digitsValue [m1, m2]) (hmhi : digitsValue [m1, m2] ≤ 12)
    (hdlo : 1 ≤ digitsValue [d1, d2])
    (hdhi : digitsValue [d1, d2] ≤
      daysInMonth (digitsValue [y1, y2, y3, y4] : Nat) (digitsValue [m1, m2])) :
    strftimeYm (String.mk [y1, y2, y3, y4, '-', m1, m2, '-', d1, d2]) =
      some (String.mk [y1, y2, y3, y4, '-', m1, m2]) := by
  have hdim : daysInMonth (digitsValue [y1, y2, y3, y4] : Nat) (digitsValue [m1, m2]) ≤ 31 := by
    unfold daysInMonth
    split
    · split <;> omega
    · split <;> omega
  have hd31 : digitsValue [d1, d2] ≤ 31 := le_trans hdhi hdim
  unfold strftimeYm
  simp only [getDigits_four y1 y2 y3 y4 _ hy1 hy2 hy3 hy4,
    getDigits_two 1 12 m1 m2 _ hm1 hm2 hmlo hmhi,
    getDigits_two 1 31 d1 d2 _ hd1 hd2 hdlo hd31]
  have hnorm : normalizeYm (digitsValue [y1, y2, y3, y4] : Nat) (digitsValue [m1, m2])
      ((digitsValue [d1, d2] : Nat) + (0 : Int) / 1440) =
      (((digitsValue [y1, y2, y3, y4] : Nat) : Int), digitsValue [m1, m2]) := by
    unfold normalizeYm
    have h1 : ¬ (((digitsValue [d1, d2] : Nat) : Int) + 0 / 1440 < 1) := by omega
    have h2 : ¬ ((daysInMonth (digitsValue [y1, y2, y3, y4] : Nat) (digitsValue [m1, m2]) : Int) <
        ((digitsValue [d1, d2] : Nat) : Int) + 0 / 1440) := by omega
    rw [if_neg h1, if_neg h2]
  have hy : ¬ ((9999 : Int) < (digitsValue [y1, y2, y3, y4] : Nat)) := by
    obtain ⟨ha1, ha2⟩ := isDigit_bounds y1 hy1
    obtain ⟨hb1, hb2⟩ := isDigit_bounds y2 hy2
    obtain ⟨hc1, hc2⟩ := isDigit_bounds y3 hy3
    obtain ⟨hd1, hd2⟩ := isDigit_bounds y4 hy4
    rw [digitsValue_four]
    omega
  simp only [List.dropWhile_nil, List.isEmpty_nil, if_true, hnorm, hy, if_false,
    padYear_digits y1 y2 y3 y4 hy1 hy2 hy3 hy4, pad2_digits m1 m2 hm1 hm2]
  rfl

/-! ## Attendance queries: range, summary, by date -/

/-- C12: `getAttendanceByStudent` returns exactly the attendance rows of the student whose
date lies between the two bounds, both included, in the text order of the dates, and it
lists them by date descending. -/
theorem getAttendanceByStudent_range_sorted (db : Db) (s : Int) (startDate endDate : String) :
    (getAttendanceByStudent db s startDate endDate).Sorted (fun a b => b.date ≤ a.date) ∧
    (getAttendanceByStudent db s startDate endDate).Perm
      (db.attendance.filter (fun a =>
        a.student_id == s && (decide (startDate ≤ a.date) && decide (a.date ≤ endDate)))) ∧
    (∀ a, a ∈ getAttendanceByStudent db s startDate endDate ↔
      a ∈ db.attendance ∧ a.student_id = s ∧ startDate ≤ a.date ∧ a.date ≤ endDate) ∧
    (db.attendance.Nodup → (getAttendanceByStudent db s startDate endDate).Nodup) := by
  have hperm : (getAttendanceByStudent db s startDate endDate).Perm
      (db.attendance.filter (fun a =>
        a.student_id == s && (decide (startDate ≤ a.date) && decide (a.date ≤ endDate)))) :=
    List.perm_insertionSort _ _
  refine ⟨List.sorted_insertionSort _ _, hperm, ?_, ?_⟩
  · intro a
    rw [hperm.mem_iff]
    simp [List.mem_filter]
  · intro hn
    exact hperm.nodup_iff.2 (hn.filter _)

theorem getAttendanceByStudent_range_sorted_witness :
    (getAttendanceByStudent dbAttendance 1 "2024-03-01" "2024-03-31").Nodup :=
  (getAttendanceByStudent_range_sorted dbAttendance 1 "2024-03-01" "2024-03-31").2.2.2
    (by decide)

theorem length_filter_status (rows : List Attendance) (st : Option String) :
    (rows.filter (fun a => a.status == st)).length =
      List.countP (fun x => decide (x = st)) (rows.map (·.status)) := by
  induction rows with
  | nil => rfl
  | cons a l ih =>
    by_cases h : a.status = st
    · have hb : (a.status == st) = true := by simp [h]
      rw [List.filter_cons, hb, List.map_cons, List.countP_cons]
      simp [h, ih]
    · have hb : (a.status == st) = false := by simp [h]
      rw [List.filter_cons, hb, List.map_cons, List.countP_cons]
      simp [h, ih]

/-- C13: `getAttendanceSummary` has one row for each status that occurs among the
student's records dated in the month (no two rows share a status, a status that does not
occur has no row), the count of a row is the number of those records with its status, and
the counts add up to the number of those records.  A record is dated in month `m` when
`strftime('%Y-%m', date)` is `m`; by `strftimeYm_calendar_date` that is the month a
calendar date names. -/
theorem getAttendanceSummary_groups (db : Db) (s : Int) (m : String) :
    ((getAttendanceSummary db s m).map (·.status)).Nodup ∧
    (∀ r ∈ getAttendanceSummary db s m,
      0 < r.count ∧
      r.count = ((attendanceInMonth db s m).filter (fun a => a.status == r.status)).length) ∧
    (∀ a ∈ attendanceInMonth db s m, ∃ r ∈ getAttendanceSummary db s m, r.status = a.status) ∧
    (∀ r ∈ getAttendanceSummary db s m, ∃ a ∈ attendanceInMonth db s m, a.status = r.status) ∧
    ((getAttendanceSummary db s m).map (·.count)).sum = (attendanceInMonth db s m).length ∧
    (∀ a, a ∈ attendanceInMonth db s m ↔
      a ∈ db.attendance ∧ a.student_id = s ∧ strftimeYm a.date = some m) := by
  have hst : (getAttendanceSummary db s m).map (·.status) =
      ((attendanceInMonth db s m).map (·.status)).dedup := by
    simp [getAttendanceSummary, List.map_map, Function.comp_def]
  have hcnt : (getAttendanceSummary db s m).map (·.count) =
      ((attendanceInMonth db s m).map (·.status)).dedup.map
        (fun st => @List.count (Option String) instBEqOfDecidableEq st
          ((attendanceInMonth db s m).map (·.status))) := by
    simp only [getAttendanceSummary, List.map_map, Function.comp_def, length_filter_status]
    rfl
  have hmem : ∀ r ∈ getAttendanceSummary db s m,
      r.status ∈ (attendanceInMonth db s m).map (·.status) ∧
      r.count = ((attendanceInMonth db s m).filter (fun a => a.status == r.status)).length := by
    intro r hr
    simp only [getAttendanceSummary, List.mem_map] at hr
    obtain ⟨st, hst1, rfl⟩ := hr
    exact ⟨List.mem_dedup.1 hst1, rfl⟩
  refine ⟨?_, ?_, ?_, ?_, ?_, ?_⟩
  · rw [hst]
    exact List.nodup_dedup _
  · intro r hr
    obtain ⟨h1, h2⟩ := hmem r hr
    refine ⟨?_, h2⟩
    obtain ⟨a, ha, has⟩ := List.mem_map.1 h1
    rw [h2]
    exact List.length_pos_of_mem (List.mem_filter.2 ⟨ha, by simp [has]⟩)
  · intro a ha
    have : a.status ∈ (getAttendanceSummary db s m).map (·.status) := by
      rw [hst, List.mem_dedup]
      exact List.mem_map.2 ⟨a, ha, rfl⟩
    obtain ⟨r, hr, hrs⟩ := List.mem_map.1 this
    exact ⟨r, hr, hrs⟩
  · intro r hr
    obtain ⟨a, ha, has⟩ := List.mem_map.1 (hmem r hr).1
    exact ⟨a, ha, has⟩
  · have hsum := List.sum_map_count_dedup_eq_length ((attendanceInMonth db s m).map (·.status))
    rw [hcnt]
    simpa using hsum
  · intro a
    simp [attendanceInMonth, List.mem_filter]

/-! ## Joins with `students`: one joined row per row whose student exists -/

theorem joinRow_fst {α : Type} (students : List Student) (hn : (students.map (·.id)).Nodup)
    (key : α → Int) (cond : α × Student → Bool) (x : α) :
    ((((students.filter (fun s => key x == s.id)).map (fun s => (x, s))).filter cond).map
      Prod.fst) =
      if students.any (fun s => s.id == key x && cond (x, s)) = true then [x] else [] := by
  induction students with
  | nil => simp
  | cons s ss ih =>
    rw [List.map_cons, List.nodup_cons] at hn
    by_cases hid : key x = s.id
    · have hnone : ∀ t ∈ ss, ¬ (key x = t.id) := by
        intro t ht heq
        exact hn.1 (List.mem_map.2 ⟨t, ht, by rw [← heq, hid]⟩)
      have hfil : ss.filter (fun t => key x == t.id) = [] := by
        rw [List.filter_eq_nil_iff]
        intro t ht
        simpa using hnone t ht
      have hany : ss.any (fun t => t.id == key x && cond (x, t)) = false := by
        rw [List.any_eq_false]
        intro t ht
        have hne : ¬ (t.id = key x) := fun h => hnone t ht h.symm
        simp [hne]
      have hhead : (key x == s.id) = true := by simp [hid]
      have hhead2 : (s.id == key x) = true := by simp [hid]
      rw [List.filter_cons, List.any_cons, hfil, hany, hhead, hhead2]
      by_cases hc : cond (x, s) = true <;> simp [hc]
    · have hid2 : ¬ (s.id = key x) := fun h => hid h.symm
      have hhead : (key x == s.id) = false := by simp [hid]
      have hhead2 : (s.id == key x) = false := by simp [hid2]
      rw [List.filter_cons, List.any_cons, hhead, hhead2]
      simpa using ih hn.2

theorem join_filter_fst {α : Type} (students : List Student)
    (hn : (students.map (·.id)).Nodup) (key : α → Int) (cond : α × Student → Bool)
    (xs : List α) :
    (((xs.flatMap (fun x =>
        (students.filter (fun s => key x == s.id)).map (fun s => (x, s)))).filter cond).map
      Prod.fst) =
      xs.filter (fun x => students.any (fun s => s.id == key x && cond (x, s))) := by
  rw [List.filter_flatMap, List.map_flatMap]
  induction xs with
  | nil => simp
  | cons x xs ih =>
    rw [List.flatMap_cons, ih, joinRow_fst students hn key cond x, List.filter_cons]
    split <;> simp

theorem mem_join {α : Type} (students : List Student) (key : α → Int) (xs : List α)
    (x : α) (s : Student) :
    (x, s) ∈ xs.flatMap (fun x =>
        (students.filter (fun s => key x == s.id)).map (fun s => (x, s))) ↔
      x ∈ xs ∧ s ∈ students ∧ key x = s.id := by
  simp only [List.mem_flatMap, List.mem_map, List.mem_filter, beq_iff_eq, Prod.mk.injEq]
  constructor
  · rintro ⟨y, hy, t, ⟨ht, hk⟩, rfl, rfl⟩
    exact ⟨hy, ht, hk⟩
  · rintro ⟨hx, hs, hk⟩
    exact ⟨x, hx, s, ⟨hs, hk⟩, rfl, rfl⟩

/-- C14: with unique student ids, `getAttendanceByDate` has exactly one row per attendance
record of the date whose student belongs to the coach, each with that student's name, in
ascending order of name; a student without a record on the date has no row. -/
theorem getAttendanceByDate_exact (db : Db) (c : Int) (d : String)
    (hn : (db.students.map (·.id)).Nodup) :
    ((getAttendanceByDate db c d).map (·.attendance)).Perm
      (db.attendance.filter (fun a => a.date == d && attendanceOfCoach db c a)) ∧
    ((getAttendanceByDate db c d).map (·.name)).Sorted (· ≤ ·) ∧
    (∀ r ∈ getAttendanceByDate db c d,
      r.attendance ∈ db.attendance ∧ r.attendance.date = d ∧
      ∃ s ∈ db.students, s.id = r.attendance.student_id ∧ s.coach_id = c ∧ r.name = s.name) ∧
    (∀ s ∈ db.students, (∀ a ∈ db.attendance, a.student_id = s.id → a.date ≠ d) →
      ∀ r ∈ getAttendanceByDate db c d, r.attendance.student_id ≠ s.id) := by
  have hrow : ∀ r ∈ getAttendanceByDate db c d,
      r.attendance ∈ db.attendance ∧ r.attendance.date = d ∧
      ∃ s ∈ db.students, s.id = r.attendance.student_id ∧ s.coach_id = c ∧ r.name = s.name := by
    intro r hr
    simp only [getAttendanceByDate, List.mem_map] at hr
    obtain ⟨⟨a, s⟩, hx, rfl⟩ := hr
    rw [List.mem_insertionSort, List.mem_filter] at hx
    obtain ⟨hj, hcond⟩ := hx
    have hj2 := (mem_join db.students (fun a : Attendance => a.student_id) db.attendance a s).1 hj
    simp only [Bool.and_eq_true, beq_iff_eq] at hcond
    exact ⟨hj2.1, hcond.2, s, hj2.2.1, hj2.2.2.symm, hcond.1, rfl⟩
  refine ⟨?_, ?_, hrow, ?_⟩
  · have hmap : (getAttendanceByDate db c d).map (·.attendance) =
        (((attendanceJoinStudents db).filter (fun x =>
          x.2.coach_id == c && x.1.date == d)).insertionSort
            (fun x y => x.2.name ≤ y.2.name)).map Prod.fst := by
      simp [getAttendanceByDate, List.map_map, Function.comp_def]
    rw [hmap]
    refine ((List.perm_insertionSort _ _).map Prod.fst).trans ?_
    unfold attendanceJoinStudents
    rw [join_filter_fst db.students hn (fun a : Attendance => a.student_id)]
    apply List.Perm.of_eq
    apply List.filter_congr
    intro a _
    unfold attendanceOfCoach
    rw [Bool.eq_iff_iff]
    simp only [List.any_eq_true, Bool.and_eq_true, beq_iff_eq]
    constructor
    · rintro ⟨s, hs, h1, h2, h3⟩
      exact ⟨h3, s, hs, h1, h2⟩
    · rintro ⟨h3, s, hs, h1, h2⟩
      exact ⟨s, hs, h1, h2, h3⟩
  · have hmap : (getAttendanceByDate db c d).map (·.name) =
        (((attendanceJoinStudents db).filter (fun x =>
          x.2.coach_id == c && x.1.date == d)).insertionSort
            (fun x y => x.2.name ≤ y.2.name)).map (fun x => x.2.name) := by
      simp [getAttendanceByDate, List.map_map, Function.comp_def]
    rw [hmap]
    exact List.pairwise_map.2
      (List.sorted_insertionSort (fun x y : Attendance × Student => x.2.name ≤ y.2.name) _)
  · intro s _ hno r hr heq
    obtain ⟨h1, h2, _⟩ := hrow r hr
    exact hno r.attendance h1 heq h2

theorem getAttendanceByDate_exact_witness :
    ((getAttendanceByDate dbAttendance 1 "2024-03-01").map (·.attendance)).Perm
        (dbAttendance.attendance.filter (fun a =>
          a.date == "2024-03-01" && attendanceOfCoach dbAttendance 1 a)) ∧
      ((getAttendanceByDate dbAttendance 1 "2024-03-01").map (·.name)).Sorted (· ≤ ·) :=
  ⟨(getAttendanceByDate_exact dbAttendance 1 "2024-03-01" (by decide)).1,
    (getAttendanceByDate_exact dbAttendance 1 "2024-03-01" (by decide)).2.1⟩

/-! ## Pending payments -/

/-- C15: with unique student ids, `getPendingPayments` lists exactly the payments of
status `pending` whose student belongs to the coach, ordered by `payment_date` ascending,
each with the name of its student; no completed payment is listed. -/
theorem getPendingPayments_exact (db : Db) (c : Int) (hn : (db.students.map (·.id)).Nodup) :
    (getPendingPayments db c).map (·.payment) =
      (db.payments.filter (fun p =>
        p.status == some "pending" && paymentOfCoach db c p)).insertionSort
          (fun a b => a.payment_date ≤ b.payment_date) ∧
    ((getPendingPayments db c).map (·.payment)).Sorted
      (fun a b => a.payment_date ≤ b.payment_date) ∧
    (∀ r ∈ getPendingPayments db c,
      r.payment ∈ db.payments ∧ r.payment.status = some "pending" ∧
      r.payment.status ≠ some "completed" ∧
      ∃ s ∈ db.students, s.id = r.payment.student_id ∧ s.coach_id = c ∧
        r.student_name = s.name) := by
  have hmap : (getPendingPayments db c).map (·.payment) =
      (db.payments.filter (fun p =>
        p.status == some "pending" && paymentOfCoach db c p)).insertionSort
          (fun a b => a.payment_date ≤ b.payment_date) := by
    have h1 : (getPendingPayments db c).map (·.payment) =
        (((paymentsJoinStudents db).filter (fun x =>
          x.2.coach_id == c && x.1.status == some "pending")).insertionSort
            (fun x y => x.1.payment_date ≤ y.1.payment_date)).map Prod.fst := by
      simp [getPendingPayments, List.map_map, Function.comp_def]
    rw [h1, List.map_insertionSort (fun x y : Payment × Student =>
      x.1.payment_date ≤ y.1.payment_date) (fun a b : Payment =>
      a.payment_date ≤ b.payment_date) Prod.fst _ (fun _ _ _ _ => Iff.rfl)]
    congr 1
    unfold paymentsJoinStudents
    rw [join_filter_fst db.students hn (fun p : Payment => p.student_id)]
    apply List.filter_congr
    intro p _
    unfold paymentOfCoach
    rw [Bool.eq_iff_iff]
    simp only [List.any_eq_true, Bool.and_eq_true, beq_iff_eq]
    constructor
    · rintro ⟨s, hs, h1, h2, h3⟩
      exact ⟨h3, s, hs, h1, h2⟩
    · rintro ⟨h3, s, hs, h1, h2⟩
      exact ⟨s, hs, h1, h2, h3⟩
  refine ⟨hmap, ?_, ?_⟩
  · rw [hmap]
    exact List.sorted_insertionSort _ _
  · intro r hr
    simp only [getPendingPayments, List.mem_map] at hr
    obtain ⟨⟨p, s⟩, hx, rfl⟩ := hr
    rw [List.mem_insertionSort, List.mem_filter] at hx
    obtain ⟨hj, hcond⟩ := hx
    have hj2 := (mem_join db.students (fun p : Payment => p.student_id) db.payments p s).1 hj
    simp only [Bool.and_eq_true, beq_iff_eq] at hcond
    refine ⟨hj2.1, hcond.2, ?_, s, hj2.2.1, hj2.2.2.symm, hcond.1, rfl⟩
    show p.status ≠ some "completed"
    rw [hcond.2]
    decide

theorem getPendingPayments_exact_witness :
    (getPendingPayments dbMarch 1).map (·.payment) =
      (dbMarch.payments.filter (fun p =>
        p.status == some "pending" && paymentOfCoach dbMarch 1 p)).insertionSort
          (fun a b => a.payment_date ≤ b.payment_date) :=
  (getPendingPayments_exact dbMarch 1 (by decide)).1

/-! ## Updates in place -/

/-- C16: `updatePaymentStatus(p, st)` keeps the payments table row for row; a row of id `p`
gets status `st` and keeps every other field, any other row is untouched; when no row has
id `p` the table is unchanged and zero rows are affected.  No other table changes. -/
theorem updatePaymentStatus_frame (db : Db) (p : Int) (st : Option String) :
    List.Forall₂ (fun old new : Payment =>
        new.id = old.id ∧ new.student_id = old.student_id ∧ new.amount = old.amount ∧
        new.payment_date = old.payment_date ∧ new.payment_method = old.payment_method ∧
        new.month = old.month ∧ new.notes = old.notes ∧
        new.transaction_id = old.transaction_id ∧ new.created_at = old.created_at ∧
        (old.id = p → new.status = st) ∧ (old.id ≠ p → new = old))
      db.payments (updatePaymentStatus db p st).1.payments ∧
    ((∀ x ∈ db.payments, x.id ≠ p) →
      (updatePaymentStatus db p st).1.payments = db.payments ∧
      (updatePaymentStatus db p st).2.rowsAffected = 0) ∧
    (updatePaymentStatus db p st).2.rowsAffected =
      (db.payments.filter (fun x => x.id == p)).length ∧
    (updatePaymentStatus db p st).1.students = db.students ∧
    (updatePaymentStatus db p st).1.attendance = db.attendance ∧
    (updatePaymentStatus db p st).1.coaches = db.coaches ∧
    (updatePaymentStatus db p st).1.payment_methods = db.payment_methods := by
  refine ⟨?_, ?_, rfl, rfl, rfl, rfl, rfl⟩
  · show List.Forall₂ _ db.payments (db.payments.map _)
    rw [List.forall₂_map_right_iff, List.forall₂_same]
    intro x _
    by_cases h : x.id = p
    · simp [h]
    · simp [h]
  · intro hno
    constructor
    · show db.payments.map _ = db.payments
      conv_rhs => rw [← List.map_id db.payments]
      apply List.map_congr_left
      intro x hx
      simp [hno x hx]
    · show (db.payments.filter (fun x => x.id == p)).length = 0
      rw [List.length_eq_zero, List.filter_eq_nil_iff]
      intro x hx
      simpa using hno x hx

theorem updatePaymentStatus_frame_witness :
    (updatePaymentStatus dbMarch 9 (some "completed")).1.payments = dbMarch.payments ∧
      (updatePaymentStatus dbMarch 9 (some "completed")).2.rowsAffected = 0 :=
  (updatePaymentStatus_frame dbMarch 9 (some "completed")).2.1 (by decide)

/-- C17 (as amended): when `studentData` supplies a name, `updateStudent(s, studentData)`
succeeds and sets all seven mutable fields of the rows of id `s` to the supplied values
(a missing property, and a `NaN` fee, is stored as `NULL`, so it is overwritten, not kept);
id, coach_id, enrollment_date and created_at of that student, every other student and
every other table are unchanged.  When the name is missing and a student of id `s` exists,
the statement is refused by `NOT NULL`. -/
theorem updateStudent_replaces_mutable_fields (db : Db) (s : Int) (sd : StudentUpdate) :
    (∀ n, sd.name = some n →
      ∃ db1 r, updateStudent db s sd = .ok (db1, r) ∧
        List.Forall₂ (fun old new : Student =>
            new.id = old.id ∧ new.coach_id = old.coach_id ∧
            new.enrollment_date = old.enrollment_date ∧ new.created_at = old.created_at ∧
            (old.id = s →
              new.name = n ∧ new.email = sd.email ∧ new.phone = sd.phone ∧
              new.sport_or_subject = sd.sport_or_subject ∧ new.batch = sd.batch ∧
              new.monthly_fee = sd.monthly_fee.bind bindReal ∧ new.status = sd.status) ∧
            (old.id ≠ s → new = old))
          db.students db1.students ∧
        db1.attendance = db.attendance ∧ db1.payments = db.payments ∧
        db1.coaches = db.coaches ∧ db1.payment_methods = db.payment_methods) ∧
    (sd.name = none → (∃ x ∈ db.students, x.id = s) →
      updateStudent db s sd = .error (.notNull "students.name")) := by
  constructor
  · intro n hname
    by_cases hex : db.students.any (fun x => x.id == s) = true
    · refine ⟨{ db with students := db.students.map (fun x =>
          if x.id == s then updatedStudent x n sd else x) },
        ⟨none, (db.students.filter (fun x => x.id == s)).length⟩, ?_, ?_, rfl, rfl, rfl, rfl⟩
      · simp only [updateStudent, hex, if_true, hname]
      · show List.Forall₂ _ db.students (db.students.map _)
        rw [List.forall₂_map_right_iff, List.forall₂_same]
        intro x _
        by_cases h : x.id = s
        · simp [h, updatedStudent]
        · simp [h]
    · refine ⟨db, ⟨none, 0⟩, ?_, ?_, rfl, rfl, rfl, rfl⟩
      · simp only [updateStudent, hex, if_false, Bool.false_eq_true]
      · rw [List.forall₂_same]
        intro x hx
        have hne : x.id ≠ s := by
          intro h
          apply hex
          rw [List.any_eq_true]
          exact ⟨x, hx, by simp [h]⟩
        exact ⟨rfl, rfl, rfl, rfl, fun h => absurd h hne, fun _ => rfl⟩
  · intro hname hex
    have hany : db.students.any (fun x => x.id == s) = true := by
      rw [List.any_eq_true]
      obtain ⟨x, hx, h⟩ := hex
      exact ⟨x, hx, by simp [h]⟩
    simp only [updateStudent, hany, if_true, hname]

theorem updateStudent_replaces_mutable_fields_witness :
    ∃ db1 r,
      updateStudent dbOneStudent 5
          ⟨some "Asha K", none, some "98765", none, none, some (.fin 1800), some "inactive"⟩ =
        .ok (db1, r) ∧
      List.Forall₂ (fun old new : Student =>
          new.id = old.id ∧ new.coach_id = old.coach_id ∧
          new.enrollment_date = old.enrollment_date ∧ new.created_at = old.created_at ∧
          (old.id = 5 →
            new.name = "Asha K" ∧ new.email = none ∧ new.phone = some "98765" ∧
            new.sport_or_subject = none ∧ new.batch = none ∧
            new.monthly_fee = (some (JsNumber.fin 1800)).bind bindReal ∧
            new.status = some "inactive") ∧
          (old.id ≠ 5 → new = old))
        dbOneStudent.students db1.students ∧
      db1.attendance = dbOneStudent.attendance ∧ db1.payments = dbOneStudent.payments ∧
      db1.coaches = dbOneStudent.coaches ∧
      db1.payment_methods = dbOneStudent.payment_methods :=
  (updateStudent_replaces_mutable_fields dbOneStudent 5
    ⟨some "Asha K", none, some "98765", none, none, some (.fin 1800), some "inactive"⟩).1
    "Asha K" rfl

/-- C17 (counterexample): student 5 exists; `updateStudent(5, { email, monthly_fee, status })`
without a name is refused, so no field is overwritten, while the same data with a name is
accepted. -/
theorem updateStudent_without_name_refused :
    studentsAfterUpdate
        ⟨none, some "asha@example.com", none, none, none, some (.fin 1800), some "inactive"⟩ =
      none ∧
    (studentsAfterUpdate
        ⟨some "Asha", some "asha@example.com", none, none, none, some (.fin 1800),
          some "inactive"⟩).map (List.map (·.email)) = some [some "asha@example.com"] := by
  refine ⟨by rfl, by rfl⟩

/-! ## Coaches -/

/-- C18: `getCoachById` returns a coach row of that id when the table has one (the row, ids
being unique) and `null` when it has none; it is a total function, so a missing id is an
ordinary result and not a failure. -/
theorem getCoachById_found_or_null (db : Db) (id : Int) :
    (∀ c, getCoachById db id = some c → c ∈ db.coaches ∧ c.id = id) ∧
    ((∃ c ∈ db.coaches, c.id = id) → ∃ c, getCoachById db id = some c) ∧
    (getCoachById db id = none ↔ ∀ c ∈ db.coaches, c.id ≠ id) ∧
    ((db.coaches.map (·.id)).Nodup →
      ∀ c ∈ db.coaches, c.id = id → getCoachById db id = some c) := by
  have hsome : ∀ c, getCoachById db id = some c → c ∈ db.coaches ∧ c.id = id := by
    intro c hc
    have hmem : c ∈ db.coaches.filter (fun c => c.id == id) := List.mem_of_mem_head? hc
    rw [List.mem_filter] at hmem
    exact ⟨hmem.1, by simpa using hmem.2⟩
  have hnone : getCoachById db id = none ↔ ∀ c ∈ db.coaches, c.id ≠ id := by
    unfold getCoachById
    rw [List.head?_eq_none_iff, List.filter_eq_nil_iff]
    simp
  have hex : (∃ c ∈ db.coaches, c.id = id) → ∃ c, getCoachById db id = some c := by
    rintro ⟨c, hc, hid⟩
    cases hg : getCoachById db id with
    | none => exact absurd hid (hnone.1 hg c hc)
    | some c2 => exact ⟨c2, rfl⟩
  refine ⟨hsome, hex, hnone, ?_⟩
  intro hn c hc hid
  obtain ⟨c2, hc2⟩ := hex ⟨c, hc, hid⟩
  obtain ⟨hm2, hid2⟩ := hsome c2 hc2
  rw [hc2]
  congr 1
  exact List.inj_on_of_nodup_map hn hm2 hc (hid2.trans hid.symm)

theorem getCoachById_found_or_null_witness :
    (∃ c, getCoachById dbCoach 1 = some c) ∧ getCoachById dbCoach 7 = none :=
  ⟨(getCoachById_found_or_null dbCoach 1).2.1
      ⟨⟨1, "Demo Coach", "demo@coach.com", some "9876543210", some "Cricket",
        some "Elite Sports Academy", "2024-01-01 08:00:00"⟩, by decide, rfl⟩,
    (getCoachById_found_or_null dbCoach 7).2.2.1.2 (by decide)⟩

/-- C19: `addCoach` fails exactly when the name or the email is missing or a coach with
the same email exists, and the error is the constraint that was violated (a failed insert
leaves the database as it was); otherwise it appends exactly one coach row, with the given
name and email and an id no row of the table had. -/
theorem addCoach_fails_iff_constraint (db : Db) (now : String) (cd : CoachData) :
    ((∃ e, addCoach db now cd = .error e) ↔
      (cd.name = none ∨ cd.email = none ∨ ∃ c ∈ db.coaches, some c.email = cd.email)) ∧
    (∀ e, addCoach db now cd = .error e →
      e = .notNull "coaches.name" ∨ e = .notNull "coaches.email" ∨
        e = .unique "coaches.email") ∧
    (∀ db1 r, addCoach db now cd = .ok (db1, r) →
      ∃ row, db1.coaches = db.coaches ++ [row] ∧ row.id ∉ db.coaches.map (·.id) ∧
        r.insertId = some row.id ∧ r.rowsAffected = 1 ∧
        some row.name = cd.name ∧ some row.email = cd.email ∧
        db1.students = db.students ∧ db1.attendance = db.attendance ∧
        db1.payments = db.payments ∧ db1.payment_methods = db.payment_methods) := by
  cases hname : cd.name with
  | none =>
    have h : addCoach db now cd = .error (.notNull "coaches.name") := by
      simp only [addCoach, hname]
    rw [h]
    refine ⟨⟨fun _ => Or.inl rfl, fun _ => ⟨_, rfl⟩⟩, ?_, ?_⟩
    · intro e he
      injection he with he
      exact Or.inl he.symm
    · intro db1 r he
      cases he
  | some n =>
    cases hemail : cd.email with
    | none =>
      have h : addCoach db now cd = .error (.notNull "coaches.email") := by
        simp only [addCoach, hname, hemail]
      rw [h]
      refine ⟨⟨fun _ => Or.inr (Or.inl rfl), fun _ => ⟨_, rfl⟩⟩, ?_, ?_⟩
      · intro e he
        injection he with he
        exact Or.inr (Or.inl he.symm)
      · intro db1 r he
        cases he
    | some em =>
      by_cases hdup : db.coaches.any (fun c => c.email == em) = true
      · have h : addCoach db now cd = .error (.unique "coaches.email") := by
          simp only [addCoach, hname, hemail, hdup, if_true]
        have hex : ∃ c ∈ db.coaches, some c.email = some em := by
          rw [List.any_eq_true] at hdup
          obtain ⟨c, hc, hce⟩ := hdup
          exact ⟨c, hc, by simpa using hce⟩
        rw [h]
        refine ⟨⟨fun _ => Or.inr (Or.inr hex), fun _ => ⟨_, rfl⟩⟩, ?_, ?_⟩
        · intro e he
          injection he with he
          exact Or.inr (Or.inr he.symm)
        · intro db1 r he
          cases he
      · have h : addCoach db now cd = .ok
            ({ db with
                coaches := db.coaches ++ [⟨nextRowid db.coachesSeq (db.coaches.map (·.id)), n,
                  em, cd.phone, cd.specialization, cd.business_name, now⟩]
                coachesSeq := nextRowid db.coachesSeq (db.coaches.map (·.id)) },
              ⟨some (nextRowid db.coachesSeq (db.coaches.map (·.id))), 1⟩) := by
          simp only [addCoach, hname, hemail, hdup, if_false, Bool.false_eq_true]
        rw [h]
        refine ⟨⟨?_, ?_⟩, ?_, ?_⟩
        · rintro ⟨e, he⟩
          cases he
        · rintro (h1 | h1 | ⟨c, hc, hce⟩)
          · cases h1
          · cases h1
          · exfalso
            apply hdup
            rw [List.any_eq_true]
            exact ⟨c, hc, by simpa using hce⟩
        · intro e he
          cases he
        · intro db1 r he
          injection he with he
          injection he with h1 h2
          subst h1 h2
          exact ⟨_, rfl, nextRowid_not_mem _ _, rfl, rfl, rfl, rfl, rfl, rfl, rfl, rfl⟩

theorem addCoach_fails_iff_constraint_witness :
    (∃ e, addCoach dbCoach "2024-02-01 08:00:00"
      ⟨some "Second Coach", some "demo@coach.com", none, none, none⟩ = .error e) ∧
    (∃ e, addCoach dbCoach "2024-02-01 08:00:00"
      ⟨some "Second Coach", none, none, none, none⟩ = .error e) :=
  ⟨(addCoach_fails_iff_constraint dbCoach "2024-02-01 08:00:00"
      ⟨some "Second Coach", some "demo@coach.com", none, none, none⟩).1.2
      (Or.inr (Or.inr ⟨⟨1, "Demo Coach", "demo@coach.com", some "9876543210", some "Cricket",
        some "Elite Sports Academy", "2024-01-01 08:00:00"⟩, by decide, rfl⟩)),
    (addCoach_fails_iff_constraint dbCoach "2024-02-01 08:00:00"
      ⟨some "Second Coach", none, none, none, none⟩).1.2 (Or.inr (Or.inl rfl))⟩

/-! ## Payment methods -/

/-- C20: `getPaymentMethods` returns exactly the rows of the coach with `is_active = 1`, in
table order; a method added with `addPaymentMethod` is stored active and is listed; after
`updatePaymentMethod` sets `is_active` to 0 on a method, no row of that id is listed, yet
the row is still in the table. -/
theorem paymentMethods_active_only (db : Db) (now : String) (c : Int)
    (md : PaymentMethodData) :
    getPaymentMethods db c =
      db.payment_methods.filter (fun m => m.coach_id == c && m.is_active == some 1) ∧
    (∀ m, m ∈ getPaymentMethods db c ↔
      m ∈ db.payment_methods ∧ m.coach_id = c ∧ m.is_active = some 1) ∧
    (∃ row, (addPaymentMethod db now c md).1.payment_methods = db.payment_methods ++ [row] ∧
      (addPaymentMethod db now c md).2.insertId = some row.id ∧
      row.id ∉ db.payment_methods.map (·.id) ∧
      row.coach_id = c ∧ row.is_active = some 1 ∧
      row ∈ getPaymentMethods (addPaymentMethod db now c md).1 c) ∧
    (∀ (id : Int) (md2 : PaymentMethodData), md2.is_active = some 0 →
      (∀ m ∈ getPaymentMethods (updatePaymentMethod db id md2).1 c, m.id ≠ id) ∧
      ((∃ m ∈ db.payment_methods, m.id = id) →
        ∃ m ∈ (updatePaymentMethod db id md2).1.payment_methods,
          m.id = id ∧ m.is_active = some 0) ∧
      (updatePaymentMethod db id md2).1.payment_methods.length = db.payment_methods.length ∧
      (∀ m ∈ db.payment_methods, m.id ≠ id →
        m ∈ (updatePaymentMethod db id md2).1.payment_methods)) := by
  refine ⟨rfl, ?_, ?_, ?_⟩
  · intro m
    simp [getPaymentMethods, List.mem_filter]
  · refine ⟨(⟨nextRowid db.paymentMethodsSeq
        (db.payment_methods.map (fun m : PaymentMethod => m.id)), c, md.method_type,
        md.provider, md.api_key, some 1, now⟩ : PaymentMethod), rfl, rfl,
      nextRowid_not_mem _ _, rfl, rfl, ?_⟩
    simp [getPaymentMethods, addPaymentMethod, List.mem_filter]
  · intro id md2 h0
    refine ⟨?_, ?_, ?_, ?_⟩
    · intro m hm hid
      simp only [getPaymentMethods, updatePaymentMethod, List.mem_filter, List.mem_map] at hm
      obtain ⟨⟨x, _, hx⟩, hcond⟩ := hm
      by_cases hxid : x.id = id
      · simp only [hxid, beq_self_eq_true, if_true] at hx
        subst hx
        simp [h0] at hcond
      · have hb : (x.id == id) = false := by simp [hxid]
        simp only [hb, Bool.false_eq_true, if_false] at hx
        subst hx
        exact hxid hid
    · rintro ⟨m, hm, hid⟩
      refine ⟨{ m with
                method_type := md2.method_type
                provider := md2.provider
                api_key := md2.api_key
                is_active := md2.is_active }, ?_, hid, h0⟩
      simp only [updatePaymentMethod, List.mem_map]
      exact ⟨m, hm, by simp [hid]⟩
    · simp [updatePaymentMethod]
    · intro m hm hid
      simp only [updatePaymentMethod, List.mem_map]
      exact ⟨m, hm, by simp [hid]⟩

theorem paymentMethods_active_only_witness :
    (∀ m ∈ getPaymentMethods
        (updatePaymentMethod dbCoach 1 ⟨some "upi", some "razorpay", some "key-1", some 0⟩).1 1,
      m.id ≠ 1) ∧
    (∃ m ∈ (updatePaymentMethod dbCoach 1
        ⟨some "upi", some "razorpay", some "key-1", some 0⟩).1.payment_methods,
      m.id = 1 ∧ m.is_active = some 0) :=
  ⟨((paymentMethods_active_only dbCoach "2024-02-01 08:00:00" 1 ⟨none, none, none, none⟩).2.2.2
      1 ⟨some "upi", some "razorpay", some "key-1", some 0⟩ rfl).1,
    ((paymentMethods_active_only dbCoach "2024-02-01 08:00:00" 1 ⟨none, none, none, none⟩).2.2.2
      1 ⟨some "upi", some "razorpay", some "key-1", some 0⟩ rfl).2.1
      ⟨⟨1, 1, some "upi", some "razorpay", some "key-1", some 1, "2024-01-02 08:00:00"⟩,
        by decide, rfl⟩⟩

/-! ## The client cache -/

theorem get?_append (a b : JsObject) (k : String) :
    JsObject.get? (a ++ b) k = (JsObject.get? a k).or (JsObject.get? b k) := by
  induction a with
  | nil => simp [JsObject.get?]
  | cons kv r ih =>
    obtain ⟨k1, v1⟩ := kv
    by_cases h : k1 = k
    · simp [JsObject.get?, h]
    · simp [JsObject.get?, h, ih]

theorem get?_map_values (s : JsObject) (f : String → JsValue → JsValue) (k : String) :
    JsObject.get? (s.map (fun kv => (kv.1, f kv.1 kv.2))) k = (JsObject.get? s k).map (f k) := by
  induction s with
  | nil => simp [JsObject.get?]
  | cons kv r ih =>
    obtain ⟨k1, v1⟩ := kv
    by_cases h : k1 = k
    · subst h
      simp [JsObject.get?]
    · simp [JsObject.get?, h, ih]

theorem get?_filter_keys (p : JsObject) (q : String → Bool) (k : String) :
    JsObject.get? (p.filter (fun kv => q kv.1)) k = if q k = true then JsObject.get? p k else none := by
  induction p with
  | nil => simp [JsObject.get?]
  | cons kv r ih =>
    obtain ⟨k1, v1⟩ := kv
    by_cases h : k1 = k
    · subst h
      by_cases hq : q k1 = true
      · simp [JsObject.get?, List.filter_cons, hq]
      · simp [JsObject.get?, List.filter_cons, hq, ih]
    · by_cases hq : q k1 = true
      · simp [JsObject.get?, List.filter_cons, hq, h, ih]
      · simp [JsObject.get?, List.filter_cons, hq, h, ih]

theorem get?_spread (s p : JsObject) (k : String) :
    JsObject.get? (JsObject.spread s p) k = (JsObject.get? p k).or (JsObject.get? s k) := by
  unfold JsObject.spread
  rw [get?_append, get?_map_values s (fun key v => (JsObject.get? p key).getD v) k,
    get?_filter_keys p (fun key => (JsObject.get? s key).isNone) k]
  cases hs : JsObject.get? s k with
  | none => simp
  | some v =>
    cases hp : JsObject.get? p k with
    | none => simp
    | some w => simp

theorem forall₂_merge (l : List JsObject) (id : JsValue) (patch : JsObject) :
    List.Forall₂ (fun old new : JsObject =>
        ((JsObject.prop old "id").strictEq id = true →
          ∀ k, JsObject.get? new k = (JsObject.get? patch k).or (JsObject.get? old k)) ∧
        ((JsObject.prop old "id").strictEq id = false → new = old))
      l (l.map (fun s =>
        if (JsObject.prop s "id").strictEq id then JsObject.spread s patch else s)) := by
  rw [List.forall₂_map_right_iff, List.forall₂_same]
  intro x _
  by_cases h : (JsObject.prop x "id").strictEq id = true
  · simp only [h, if_true]
    exact ⟨fun _ k => get?_spread x patch k, fun hf => by simp at hf⟩
  · have hf : (JsObject.prop x "id").strictEq id = false := by simpa using h
    simp [hf]

theorem map_merge_of_no_match (l : List JsObject) (id : JsValue) (patch : JsObject)
    (h : ∀ s ∈ l, (JsObject.prop s "id").strictEq id = false) :
    l.map (fun s =>
      if (JsObject.prop s "id").strictEq id then JsObject.spread s patch else s) = l := by
  conv_rhs => rw [← List.map_id l]
  apply List.map_congr_left
  intro x hx
  simp [h x hx]

/-- C21: `updateStudentInStore(id, patch)` maps the students list entry for entry: an entry
whose `id` is strictly equal to `id` becomes the merge of the entry with the patch (a
property of the patch wins, any other property of the entry is kept), every other entry is
untouched, so length and order are kept; with no matching entry the list is unchanged.
Nothing else in the cache changes.  `updatePaymentInStore` does the same on the payments
list. -/
theorem updateInStore_merges_matching (st : AppStore) (id : JsValue) (patch : JsObject) :
    (List.Forall₂ (fun old new : JsObject =>
        ((JsObject.prop old "id").strictEq id = true →
          ∀ k, JsObject.get? new k = (JsObject.get? patch k).or (JsObject.get? old k)) ∧
        ((JsObject.prop old "id").strictEq id = false → new = old))
      st.students (updateStudentInStore st id patch).students ∧
    (updateStudentInStore st id patch).students.length = st.students.length ∧
    ((∀ s ∈ st.students, (JsObject.prop s "id").strictEq id = false) →
      (updateStudentInStore st id patch).students = st.students) ∧
    (updateStudentInStore st id patch).coach = st.coach ∧
    (updateStudentInStore st id patch).attendance = st.attendance ∧
    (updateStudentInStore st id patch).payments = st.payments) ∧
    (List.Forall₂ (fun old new : JsObject =>
        ((JsObject.prop old "id").strictEq id = true →
          ∀ k, JsObject.get? new k = (JsObject.get? patch k).or (JsObject.get? old k)) ∧
        ((JsObject.prop old "id").strictEq id = false → new = old))
      st.payments (updatePaymentInStore st id patch).payments ∧
    (updatePaymentInStore st id patch).payments.length = st.payments.length ∧
    ((∀ s ∈ st.payments, (JsObject.prop s "id").strictEq id = false) →
      (updatePaymentInStore st id patch).payments = st.payments) ∧
    (updatePaymentInStore st id patch).coach = st.coach ∧
    (updatePaymentInStore st id patch).attendance = st.attendance ∧
    (updatePaymentInStore st id patch).students = st.students) := by
  refine ⟨⟨forall₂_merge st.students id patch, ?_, map_merge_of_no_match st.students id patch,
    rfl, rfl, rfl⟩, ⟨forall₂_merge st.payments id patch, ?_,
    map_merge_of_no_match st.payments id patch, rfl, rfl, rfl⟩⟩
  · simp [updateStudentInStore]
  · simp [updatePaymentInStore]

theorem updateInStore_merges_matching_witness :
    (updateStudentInStore sampleStore (.num (.fin 9)) [("status", .str "inactive")]).students =
        sampleStore.students ∧
      (updatePaymentInStore sampleStore (.num (.fin 9)) [("status", .str "completed")]).payments =
        sampleStore.payments :=
  ⟨(updateInStore_merges_matching sampleStore (.num (.fin 9))
      [("status", .str "inactive")]).1.2.2.1 (by decide),
    (updateInStore_merges_matching sampleStore (.num (.fin 9))
      [("status", .str "completed")]).2.2.2.1 (by decide)⟩

/-- C22: after `removeStudentFromStore(id)` no entry of the students list has an `id`
strictly equal to `id`, every other entry is still there in the original order, the coach
and the attendance and payments collections are unchanged, and removing again changes
nothing. -/
theorem removeStudentFromStore_filters (st : AppStore) (id : JsValue) :
    (∀ s ∈ (removeStudentFromStore st id).students,
      (JsObject.prop s "id").strictEq id = false) ∧
    (removeStudentFromStore st id).students.Sublist st.students ∧
    (∀ s ∈ st.students, (JsObject.prop s "id").strictEq id = false →
      s ∈ (removeStudentFromStore st id).students) ∧
    (removeStudentFromStore st id).coach = st.coach ∧
    (removeStudentFromStore st id).attendance = st.attendance ∧
    (removeStudentFromStore st id).payments = st.payments ∧
    removeStudentFromStore (removeStudentFromStore st id) id = removeStudentFromStore st id := by
  refine ⟨?_, ?_, ?_, rfl, rfl, rfl, ?_⟩
  · intro s hs
    simp only [removeStudentFromStore, List.mem_filter] at hs
    simpa using hs.2
  · exact List.filter_sublist _
  · intro s hs h
    simp only [removeStudentFromStore, List.mem_filter]
    exact ⟨hs, by simp [h]⟩
  · simp [removeStudentFromStore, List.filter_filter]

theorem removeStudentFromStore_filters_witness :
    [("id", JsValue.num (.fin 2)), ("name", .str "Asha"), ("status", .str "active")] ∈
      (removeStudentFromStore sampleStore (.num (.fin 1))).students :=
  (removeStudentFromStore_filters sampleStore (.num (.fin 1))).2.2.1
    [("id", .num (.fin 2)), ("name", .str "Asha"), ("status", .str "active")]
    (by decide) (by decide)

/-- C23: `addStudentToStore`, `addPaymentToStore` and `addAttendanceRecord` yield the
former collection with the item appended as last element: the length grows by one, the
former entries stay in place, and the coach and the other two collections are unchanged. -/
theorem addToStore_appends (st : AppStore) (item : JsObject) :
    ((addStudentToStore st item).students = st.students ++ [item] ∧
      (addStudentToStore st item).students.length = st.students.length + 1 ∧
      (addStudentToStore st item).students.getLast? = some item ∧
      (addStudentToStore st item).students.take st.students.length = st.students ∧
      (addStudentToStore st item).coach = st.coach ∧
      (addStudentToStore st item).attendance = st.attendance ∧
      (addStudentToStore st item).payments = st.payments) ∧
    ((addPaymentToStore st item).payments = st.payments ++ [item] ∧
      (addPaymentToStore st item).payments.length = st.payments.length + 1 ∧
      (addPaymentToStore st item).payments.getLast? = some item ∧
      (addPaymentToStore st item).payments.take st.payments.length = st.payments ∧
      (addPaymentToStore st item).coach = st.coach ∧
      (addPaymentToStore st item).attendance = st.attendance ∧
      (addPaymentToStore st item).students = st.students) ∧
    ((addAttendanceRecord st item).attendance = st.attendance ++ [item] ∧
      (addAttendanceRecord st item).attendance.length = st.attendance.length + 1 ∧
      (addAttendanceRecord st item).attendance.getLast? = some item ∧
      (addAttendanceRecord st item).attendance.take st.attendance.length = st.attendance ∧
      (addAttendanceRecord st item).coach = st.coach ∧
      (addAttendanceRecord st item).students = st.students ∧
      (addAttendanceRecord st item).payments = st.payments) := by
  refine ⟨⟨rfl, ?_, ?_, ?_, rfl, rfl, rfl⟩, ⟨rfl, ?_, ?_, ?_, rfl, rfl, rfl⟩,
    ⟨rfl, ?_, ?_, ?_, rfl, rfl, rfl⟩⟩ <;>
  simp [addStudentToStore, addPaymentToStore, addAttendanceRecord]

/-! ## The students list filter -/

/-- C30: the list `filterStudents` produces is a sub-sequence of the input (same relative
order, nothing new, nothing repeated that was not repeated); unless the status filter is
`all` every entry of it has the requested status; with filter `all` and a query that is
empty or white space only it is the whole input. -/
theorem filterStudents_sublist (toLowerCase : String → String) (l : List Student)
    (query status : String) :
    (filterStudents toLowerCase l query status).Sublist l ∧
    (l.Nodup → (filterStudents toLowerCase l query status).Nodup) ∧
    (status ≠ "all" → ∀ s ∈ filterStudents toLowerCase l query status, s.status = some status) ∧
    (status = "all" → (jsTrim query).isEmpty = true →
      filterStudents toLowerCase l query status = l) := by
  have hfil : (if status ≠ "all" then l.filter (fun s => s.status == some status)
      else l).Sublist l := by
    split
    · exact List.filter_sublist _
    · exact List.Sublist.refl _
  have hsub : (filterStudents toLowerCase l query status).Sublist l := by
    unfold filterStudents
    by_cases hq : (jsTrim query).isEmpty = true
    · simp only [hq, if_true]
      exact hfil
    · simp only [hq, Bool.false_eq_true, if_false]
      exact (List.filter_sublist _).trans hfil
  refine ⟨hsub, fun hn => hn.sublist hsub, ?_, ?_⟩
  · intro hs s hmem
    unfold filterStudents at hmem
    rw [if_pos hs] at hmem
    have hin : s ∈ l.filter (fun s => s.status == some status) := by
      by_cases hq : (jsTrim query).isEmpty = true
      · simpa only [hq, if_true] using hmem
      · simp only [hq, Bool.false_eq_true, if_false] at hmem
        exact List.mem_of_mem_filter hmem
    simpa using (List.mem_filter.1 hin).2
  · intro hs hq
    unfold filterStudents
    simp [hs, hq]

theorem filterStudents_sublist_witness :
    (∀ s ∈ filterStudents String.toLower dbRoster.students "a" "active",
      s.status = some "active") ∧
    filterStudents String.toLower dbRoster.students "  " "all" = dbRoster.students :=
  ⟨(filterStudents_sublist String.toLower dbRoster.students "a" "active").2.2.1 (by decide),
    (filterStudents_sublist String.toLower dbRoster.students "  " "all").2.2.2 rfl (by decide)⟩

/-! ## Deleting a student with payments -/

/-- C27: `deleteStudent(s)` leaves the attendance and payments tables as they were, so
`getPaymentsByStudent(s)` returns the same rows as before; yet no payment of student `s`
is in `getPaymentsByCoach(c)` afterwards, although (`s` being a student of `c`) each of
them was before. -/
theorem deleteStudent_orphans_payments (db : Db) (s c : Int) :
    (deleteStudent db s).1.attendance = db.attendance ∧
    (deleteStudent db s).1.payments = db.payments ∧
    getPaymentsByStudent (deleteStudent db s).1 s = getPaymentsByStudent db s ∧
    (∀ r ∈ getPaymentsByCoach (deleteStudent db s).1 c, r.payment.student_id ≠ s) ∧
    ((∃ st ∈ db.students, st.id = s ∧ st.coach_id = c) →
      ∀ p ∈ db.payments, p.student_id = s → ∃ r ∈ getPaymentsByCoach db c, r.payment = p) := by
  refine ⟨rfl, rfl, rfl, ?_, ?_⟩
  · intro r hr heq
    simp only [getPaymentsByCoach, List.mem_map] at hr
    obtain ⟨⟨p, st⟩, hx, rfl⟩ := hr
    rw [List.mem_insertionSort, List.mem_filter] at hx
    have hj := (mem_join (deleteStudent db s).1.students (fun p : Payment => p.student_id)
      (deleteStudent db s).1.payments p st).1 hx.1
    have hst : st ∈ db.students.filter (fun x => !(x.id == s)) := hj.2.1
    have hne : st.id ≠ s := by simpa using (List.mem_filter.1 hst).2
    exact hne (hj.2.2.symm.trans heq)
  · rintro ⟨st, hst, hid, hc⟩ p hp hps
    refine ⟨⟨p, st.name⟩, ?_, rfl⟩
    simp only [getPaymentsByCoach, List.mem_map]
    refine ⟨(p, st), ?_, rfl⟩
    rw [List.mem_insertionSort, List.mem_filter]
    refine ⟨(mem_join db.students (fun p : Payment => p.student_id) db.payments p st).2
      ⟨hp, hst, hps.trans hid.symm⟩, ?_⟩
    simp [hc]

theorem deleteStudent_orphans_payments_witness :
    ∃ r ∈ getPaymentsByCoach dbMarch 1, r.payment =
      (⟨1, 5, .fin 1000, "2024-03-05 10:00:00", some "cash", some "completed", some "2024-03",
        some "", some "TXN-1", "2024-03-05 10:00:00"⟩ : Payment) :=
  (deleteStudent_orphans_payments dbMarch 5 1).2.2.2.2
    ⟨⟨5, 1, "Asha", none, none, none, none, "2024-01-10 09:00:00", some "active",
      some (.fin 1500), "2024-01-10 09:00:00"⟩, by decide, rfl, rfl⟩
    ⟨1, 5, .fin 1000, "2024-03-05 10:00:00", some "cash", some "completed", some "2024-03",
      some "", some "TXN-1", "2024-03-05 10:00:00"⟩ (List.mem_cons_self _ _) rfl

/-! ## The dashboard -/

theorem loadDashboardData_attendanceToday (db : Db) (coachId : Option Int) (nowIso : String) :
    (loadDashboardData db coachId nowIso).attendanceToday =
      ((attendanceJoinStudents db).filter (fun x =>
        x.2.coach_id == coachIdOr1 coachId && x.1.date == isoDay nowIso)).length := by
  simp [loadDashboardData, getAttendanceByDate, List.length_insertionSort]

/-- C24: what `loadDashboardData` puts under "Present Today".  On 2024-03-01 coach 1 has
two students with a record, one `absent` and one `present`; `stats.attendanceToday` is 2,
the number of records of the day, whereas one record has status `present`. -/
theorem loadDashboardData_counts_absent_as_present :
    (loadDashboardData dbAbsentToday (some 1) "2024-03-01T10:00:00.000Z").attendanceToday = 2 ∧
      (dbAbsentToday.attendance.filter (fun a =>
        a.date == "2024-03-01" && a.status == some "present" &&
          attendanceOfCoach dbAbsentToday 1 a)).length = 1 := by
  constructor
  · rw [loadDashboardData_attendanceToday]
    decide
  · decide

/-! ## Property keys: `parseInt(String(n))` is `n` -/

theorem digit_char_props :
    ∀ k < 10, (Char.ofNat (48 + k)).toNat = 48 + k ∧ (Char.ofNat (48 + k)).isDigit = true ∧
      isJsWhitespace (Char.ofNat (48 + k)) = false ∧ Char.ofNat (48 + k) ≠ '+' ∧
      Char.ofNat (48 + k) ≠ '-' ∧ Char.ofNat (48 + k) ≠ 'x' ∧ Char.ofNat (48 + k) ≠ 'X' := by
  decide

theorem digit_char_cases (c : Char) (h : c.isDigit = true) :
    ∃ k, k < 10 ∧ c = Char.ofNat (48 + k) := by
  obtain ⟨h1, h2⟩ := isDigit_bounds c h
  exact ⟨c.toNat - 48, by omega, (ofNat_digit c _ (by omega)).symm⟩

theorem digitsValue_append_single (l : List Char) (c : Char) :
    digitsValue (l ++ [c]) = 10 * digitsValue l + (c.toNat - 48) := by
  simp [digitsValue, List.foldl_append]

theorem natDigitsAux_spec :
    ∀ fuel n, n < fuel →
      digitsValue (natDigitsAux fuel n) = n ∧
      (∀ c ∈ natDigitsAux fuel n, c.isDigit = true) ∧ natDigitsAux fuel n ≠ [] := by
  intro fuel
  induction fuel with
  | zero => intro n h; omega
  | succ f ih =>
    intro n hn
    unfold natDigitsAux
    by_cases h10 : n < 10
    · obtain ⟨hv, hd, _⟩ := digit_char_props n h10
      simp only [h10, if_true]
      refine ⟨?_, ?_, by simp⟩
      · simp [digitsValue, hv]
      · intro c hc
        rw [List.mem_singleton] at hc
        rw [hc]
        exact hd
    · obtain ⟨ihv, ihd, ihn⟩ := ih (n / 10) (by omega)
      obtain ⟨hv, hd, _⟩ := digit_char_props (n % 10) (by omega)
      simp only [h10, if_false]
      refine ⟨?_, ?_, by simp⟩
      · rw [digitsValue_append_single, ihv, hv]
        omega
      · intro c hc
        rcases List.mem_append.1 hc with hc | hc
        · exact ihd c hc
        · rw [List.mem_singleton] at hc
          rw [hc]
          exact hd

theorem parseIntUnsigned_digits (u : List Char) (hne : u ≠ [])
    (hd : ∀ c ∈ u, c.isDigit = true) : parseIntUnsigned u = some (digitsValue u : Int) := by
  have htw : u.takeWhile Char.isDigit = u := by
    rw [List.takeWhile_eq_self_iff]
    exact hd
  have hdec : parseDecimalRun u = some (digitsValue u : Int) := by
    unfold parseDecimalRun
    rw [htw]
    cases u with
    | nil => exact absurd rfl hne
    | cons c r => simp
  unfold parseIntUnsigned
  split
  · next x r =>
    obtain ⟨k, hk, hx⟩ := digit_char_cases x (hd x (by simp))
    obtain ⟨_, _, _, _, _, hx1, hx2⟩ := digit_char_props k hk
    rw [← hx] at hx1 hx2
    simp only [hx1, hx2, or_self, if_false]
    exact hdec
  · exact hdec

theorem natDigits_spec (n : Nat) :
    digitsValue (natDigits n) = n ∧ (∀ c ∈ natDigits n, c.isDigit = true) ∧ natDigits n ≠ [] :=
  natDigitsAux_spec (n + 1) n (Nat.lt_succ_self n)

theorem parseInt_digits (u : List Char) (hne : u ≠ []) (hd : ∀ c ∈ u, c.isDigit = true) :
    parseInt (String.mk u) = some (digitsValue u : Int) := by
  cases u with
  | nil => exact absurd rfl hne
  | cons c r =>
    obtain ⟨k, hk, hc⟩ := digit_char_cases c (hd c (by simp))
    obtain ⟨_, _, hws, hp, hm, _, _⟩ := digit_char_props k hk
    rw [← hc] at hws hp hm
    have hdrop : (c :: r).dropWhile isJsWhitespace = c :: r := by
      simp [List.dropWhile_cons, hws]
    unfold parseInt
    simp only [hdrop]
    split
    · next h => exact absurd (List.cons.inj h).1 hp
    · next h => exact absurd (List.cons.inj h).1 hm
    · exact parseIntUnsigned_digits (c :: r) hne hd

theorem parseInt_idKey (n : Int) : parseInt (idKey n) = some n := by
  obtain ⟨hv, hd, hne⟩ := natDigits_spec n.natAbs
  unfold idKey
  by_cases hneg : n < 0
  · simp only [hneg, if_true]
    have hdrop : ('-' :: natDigits n.natAbs).dropWhile isJsWhitespace =
        '-' :: natDigits n.natAbs := by
      rw [List.dropWhile_cons]
      have : isJsWhitespace '-' = false := by decide
      simp [this]
    unfold parseInt
    simp only [hdrop]
    rw [parseIntUnsigned_digits _ hne hd, hv]
    simp only [Option.map_some']
    congr 1
    omega
  · simp only [hneg, if_false]
    rw [parseInt_digits _ hne hd, hv]
    congr 1
    omega

theorem idKey_injective (a b : Int) (h : idKey a = idKey b) : a = b := by
  have ha := parseInt_idKey a
  rw [h, parseInt_idKey b] at ha
  exact (Option.some.inj ha).symm

/-! ## The attendance screen: save, then load -/

theorem getKey_setKey (m : AttendanceMarks) (k : String) (v : Option String) (k2 : String) :
    getKey (setKey m k v) k2 = if k = k2 then some v else getKey m k2 := by
  induction m with
  | nil => simp [setKey, getKey]
  | cons kv r ih =>
    obtain ⟨k1, v1⟩ := kv
    by_cases h1 : k1 = k
    · subst h1
      by_cases h2 : k1 = k2
      · simp [setKey, getKey, h2]
      · simp [setKey, getKey, h2]
    · by_cases h2 : k1 = k2
      · subst h2
        simp [setKey, getKey, h1, Ne.symm h1]
      · simp [setKey, getKey, h1, h2, ih]

theorem getKey_foldl_setKey {α : Type} (key : α → String) (val : α → Option String)
    (k : String) (v : Option String) (recs : List α) :
    ∀ m0 : AttendanceMarks, (∀ r ∈ recs, key r = k → val r = v) →
      ((∃ r ∈ recs, key r = k) ∨ getKey m0 k = some v) →
      getKey (recs.foldl (fun m r => setKey m (key r) (val r)) m0) k = some v := by
  induction recs with
  | nil =>
    intro m0 _ h
    rcases h with ⟨r, hr, _⟩ | h
    · cases hr
    · exact h
  | cons r rs ih =>
    intro m0 hval h
    rw [List.foldl_cons]
    apply ih _ (fun r2 hr2 => hval r2 (List.mem_cons_of_mem _ hr2))
    by_cases hk : key r = k
    · right
      rw [getKey_setKey, if_pos hk, hval r (List.mem_cons_self _ _) hk]
    · rcases h with ⟨r2, hr2, hk2⟩ | h
      · rcases List.mem_cons.1 hr2 with rfl | hr2
        · exact absurd hk2 hk
        · exact Or.inl ⟨r2, hr2, hk2⟩
      · right
        rw [getKey_setKey, if_neg hk]
        exact h

theorem objectEntries_perm (m : AttendanceMarks) : (objectEntries m).Perm m := by
  unfold objectEntries
  exact ((List.perm_insertionSort _ _).append_right _).trans (List.filter_append_perm _ m)

theorem saveLoop_ok (now d : String) (l : AttendanceMarks) :
    ∀ db : Db, (∀ kv ∈ l, ∃ sid, parseInt kv.1 = some sid) →
      (saveLoop db now d l).2 = true ∧ (saveLoop db now d l).1.students = db.students := by
  induction l with
  | nil => intro db _; exact ⟨rfl, rfl⟩
  | cons kv rest ih =>
    intro db h
    obtain ⟨k, st⟩ := kv
    obtain ⟨sid, hsid⟩ := h (k, st) (List.mem_cons_self _ _)
    simp only [saveLoop, hsid]
    exact ih _ (fun kv hkv => h kv (List.mem_cons_of_mem _ hkv))

theorem saveLoop_other (now d : String) (sid : Int) (l : AttendanceMarks) :
    ∀ db : Db, (∀ kv ∈ l, parseInt kv.1 ≠ some sid) →
      attendanceFor (saveLoop db now d l).1 sid d = attendanceFor db sid d := by
  induction l with
  | nil => intro db _; rfl
  | cons kv rest ih =>
    intro db h
    obtain ⟨k, st⟩ := kv
    cases hp : parseInt k with
    | none => simp only [saveLoop, hp]
    | some s0 =>
      simp only [saveLoop, hp]
      rw [ih _ (fun kv hkv => h kv (List.mem_cons_of_mem _ hkv))]
      apply attendanceFor_markAttendance_other
      rintro ⟨h1, _⟩
      exact h (k, st) (List.mem_cons_self _ _) (by rw [hp, h1])

theorem saveLoop_marks (now d : String) (l : AttendanceMarks) :
    ∀ db : Db, l.Pairwise (fun a b => parseInt a.1 ≠ parseInt b.1) →
      (∀ kv ∈ l, ∃ sid, parseInt kv.1 = some sid) →
      ∀ kv ∈ l, ∀ sid, parseInt kv.1 = some sid →
        ∃ row, attendanceFor (saveLoop db now d l).1 sid d = [row] ∧ row.status = kv.2 := by
  induction l with
  | nil => intro db _ _ kv hkv; cases hkv
  | cons hd rest ih =>
    intro db hpw hparse kv hkv sid hsid
    obtain ⟨k, st⟩ := hd
    rw [List.pairwise_cons] at hpw
    rcases List.mem_cons.1 hkv with rfl | hrest
    · simp only [saveLoop, hsid]
      rw [saveLoop_other now d sid rest _ (fun kv2 hkv2 h2 =>
        hpw.1 kv2 hkv2 (by rw [hsid, h2])), attendanceFor_markAttendance_same]
      exact ⟨_, rfl, rfl⟩
    · obtain ⟨s0, hp⟩ := hparse (k, st) (List.mem_cons_self _ _)
      simp only [saveLoop, hp]
      exact ih _ hpw.2 (fun kv2 hkv2 => hparse kv2 (List.mem_cons_of_mem _ hkv2)) kv hrest sid hsid

theorem mem_getAttendanceByDate (db : Db) (c : Int) (d : String) (r : AttendanceWithName) :
    r ∈ getAttendanceByDate db c d ↔
      ∃ a s, a ∈ db.attendance ∧ s ∈ db.students ∧ a.student_id = s.id ∧ s.coach_id = c ∧
        a.date = d ∧ r = ⟨a, s.name⟩ := by
  simp only [getAttendanceByDate, List.mem_map, List.mem_insertionSort, List.mem_filter,
    attendanceJoinStudents, Bool.and_eq_true, beq_iff_eq]
  constructor
  · rintro ⟨⟨a, s⟩, ⟨hj, hc, hd⟩, rfl⟩
    have hj2 := (mem_join db.students (fun a : Attendance => a.student_id) db.attendance a s).1 hj
    exact ⟨a, s, hj2.1, hj2.2.1, hj2.2.2, hc, hd, rfl⟩
  · rintro ⟨a, s, ha, hs, hk, hc, hd, rfl⟩
    exact ⟨(a, s), ⟨(mem_join db.students (fun a : Attendance => a.student_id) db.attendance
      a s).2 ⟨ha, hs, hk⟩, hc, hd⟩, rfl⟩

/-- C25: when the keys of the marks map are the keys of ids of students of the coach,
`saveAttendance` followed by `loadAttendanceData` for the same date gives a map that holds,
under each marked key, the status that was saved; and with an empty map `saveAttendance`
writes nothing. -/
theorem saveAttendance_then_load (db : Db) (now d : String) (cid : Option Int)
    (marks : AttendanceMarks) (hnd : (marks.map (·.1)).Nodup)
    (hkeys : ∀ kv ∈ marks, ∃ s ∈ db.students, kv.1 = idKey s.id ∧ s.coach_id = coachIdOr1 cid) :
    (marks ≠ [] → (saveAttendance db now d marks).2 = .saved) ∧
    (∀ kv ∈ marks,
      getKey (loadAttendanceData (saveAttendance db now d marks).1 cid d).attendance kv.1 =
        some kv.2) ∧
    saveAttendance db now d [] = (db, .nothingMarked) := by
  have hperm := objectEntries_perm marks
  have hparse : ∀ kv ∈ objectEntries marks, ∃ sid, parseInt kv.1 = some sid := by
    intro kv hkv
    obtain ⟨s, _, hk, _⟩ := hkeys kv (hperm.mem_iff.1 hkv)
    exact ⟨s.id, by rw [hk, parseInt_idKey]⟩
  have hpw0 : marks.Pairwise (fun a b => parseInt a.1 ≠ parseInt b.1) := by
    have hne : marks.Pairwise (fun a b => a.1 ≠ b.1) := List.pairwise_map.1 hnd
    refine hne.imp_of_mem ?_
    intro a b ha hb hab heq
    obtain ⟨sa, _, hka, _⟩ := hkeys a ha
    obtain ⟨sb, _, hkb, _⟩ := hkeys b hb
    rw [hka, hkb, parseInt_idKey, parseInt_idKey] at heq
    apply hab
    rw [hka, hkb, Option.some.inj heq]
  have hpw : (objectEntries marks).Pairwise (fun a b => parseInt a.1 ≠ parseInt b.1) :=
    (hperm.pairwise_iff (fun h => Ne.symm h)).2 hpw0
  have hloop := saveLoop_ok now d (objectEntries marks) db hparse
  have hsave : marks ≠ [] → saveAttendance db now d marks =
      ((saveLoop db now d (objectEntries marks)).1, .saved) := by
    intro hne
    have hemp : marks.isEmpty = false := by
      cases marks with
      | nil => exact absurd rfl hne
      | cons _ _ => rfl
    unfold saveAttendance
    rw [hemp]
    simp only [Bool.false_eq_true, if_false]
    cases hres : saveLoop db now d (objectEntries marks) with
    | mk db1 ok =>
      rw [hres] at hloop
      simp only at hloop
      rw [hloop.1]
  refine ⟨fun hne => by rw [hsave hne], ?_, rfl⟩
  intro kv hkv
  have hne : marks ≠ [] := List.ne_nil_of_mem hkv
  rw [hsave hne]
  obtain ⟨s, hs, hk, hc⟩ := hkeys kv hkv
  obtain ⟨row, hrow, hst⟩ := saveLoop_marks now d (objectEntries marks) db hpw hparse kv
    (hperm.mem_iff.2 hkv) s.id (by rw [hk, parseInt_idKey])
  have hrowmem : row ∈ attendanceFor (saveLoop db now d (objectEntries marks)).1 s.id d := by
    rw [hrow]
    exact List.mem_singleton.2 rfl
  have hrowp := List.mem_filter.1 hrowmem
  simp only [Bool.and_eq_true, beq_iff_eq] at hrowp
  unfold loadAttendanceData
  apply getKey_foldl_setKey (fun r : AttendanceWithName => idKey r.attendance.student_id)
    (fun r => r.attendance.status) kv.1 kv.2
  · intro r hr hkey
    obtain ⟨a, s2, ha, _, _, _, hd, rfl⟩ := (mem_getAttendanceByDate _ _ _ _).1 hr
    have hid : a.student_id = s.id := idKey_injective _ _ (hkey.trans hk)
    have hmem : a ∈ attendanceFor (saveLoop db now d (objectEntries marks)).1 s.id d :=
      List.mem_filter.2 ⟨ha, by simp [hid, hd]⟩
    rw [hrow, List.mem_singleton] at hmem
    show a.status = kv.2
    rw [hmem, hst]
  · left
    refine ⟨⟨row, s.name⟩, (mem_getAttendanceByDate _ _ _ _).2
      ⟨row, s, hrowp.1, ?_, hrowp.2.1, hc, hrowp.2.2, rfl⟩, ?_⟩
    · rw [hloop.2]
      exact hs
    · show idKey row.student_id = kv.1
      rw [hrowp.2.1, hk]

theorem saveAttendance_then_load_witness :
    getKey (loadAttendanceData (saveAttendance dbRoster "2024-03-01 08:00:00" "2024-03-01"
        [("1", some "present"), ("2", some "absent")]).1 (some 1) "2024-03-01").attendance "1" =
        some (some "present") ∧
      getKey (loadAttendanceData (saveAttendance dbRoster "2024-03-01 08:00:00" "2024-03-01"
        [("1", some "present"), ("2", some "absent")]).1 (some 1) "2024-03-01").attendance "2" =
        some (some "absent") :=
  ⟨(saveAttendance_then_load dbRoster "2024-03-01 08:00:00" "2024-03-01" (some 1)
      [("1", some "present"), ("2", some "absent")] (by decide) (by decide)).2.1
      ("1", some "present") (List.mem_cons_self _ _),
    (saveAttendance_then_load dbRoster "2024-03-01 08:00:00" "2024-03-01" (some 1)
      [("1", some "present"), ("2", some "absent")] (by decide) (by decide)).2.1
      ("2", some "absent") (List.mem_cons_of_mem _ (List.mem_cons_self _ _))⟩

/-- C26: what `loadAttendanceData` yields when the only student of coach 1 is inactive and
has a `present` record on the selected date: the displayed list is empty (Total 0), the
map holds the inactive student's id, and Present plus Absent is 1. -/
theorem loadAttendanceData_counts_exceed_total :
    (loadAttendanceData dbInactiveMarked (some 1) "2024-03-01").students = [] ∧
    (loadAttendanceData dbInactiveMarked (some 1) "2024-03-01").attendance =
      [("2", some "present")] ∧
    presentCount (loadAttendanceData dbInactiveMarked (some 1) "2024-03-01").attendance +
        absentCount (loadAttendanceData dbInactiveMarked (some 1) "2024-03-01").attendance = 1 ∧
    (loadAttendanceData dbInactiveMarked (some 1) "2024-03-01").students.length = 0 := by
  refine ⟨by decide, by decide, by decide, by decide⟩

/-! ## The month range of the student-detail screen -/

theorem list_cons_lt_cons (a b : Char) (l l2 : List Char) :
    a :: l < b :: l2 ↔ a < b ∨ (a = b ∧ l < l2) := by
  constructor
  · intro h
    cases h with
    | cons h1 => exact Or.inr ⟨rfl, h1⟩
    | rel h1 => exact Or.inl h1
  · rintro (h | ⟨rfl, h⟩)
    · exact List.Lex.rel h
    · exact List.Lex.cons h

theorem append_lt_append_of_length (p : List Char) :
    ∀ q : List Char, p.length = q.length → ∀ a b : List Char,
      (p ++ a < q ++ b ↔ p < q ∨ (p = q ∧ a < b)) := by
  induction p with
  | nil =>
    intro q hq a b
    cases q with
    | nil =>
      have h0 : ¬ (([] : List Char) < []) := lt_irrefl _
      simp [h0]
    | cons y q => simp at hq
  | cons x p ih =>
    intro q hq a b
    cases q with
    | nil => simp at hq
    | cons y q =>
      have hlen : p.length = q.length := by simpa using hq
      rw [List.cons_append, List.cons_append, list_cons_lt_cons, list_cons_lt_cons,
        ih q hlen a b, List.cons.injEq]
      tauto

theorem append_le_append_of_length (p q a b : List Char) (h : p.length = q.length) :
    p ++ a ≤ q ++ b ↔ p ≤ q ∧ (p = q → a ≤ b) := by
  rw [← not_lt, append_lt_append_of_length q p h.symm b a, not_or, not_lt, not_and, not_lt]
  constructor
  · rintro ⟨h1, h2⟩
    exact ⟨h1, fun e => h2 e.symm⟩
  · rintro ⟨h1, h2⟩
    exact ⟨h1, fun e => h2 e.symm⟩

theorem day_suffix_bounds :
    ∀ a < 10, ∀ b < 10, 1 ≤ 10 * a + b → 10 * a + b ≤ 31 →
      (['-', '0', '1'] ≤ ['-', Char.ofNat (48 + a), Char.ofNat (48 + b)] ∧
        ['-', Char.ofNat (48 + a), Char.ofNat (48 + b)] ≤ ['-', '3', '1']) := by
  decide

theorem isIsoDate_shape (x : String) (h : isIsoDate x = true) :
    ∃ (p : List Char) (d1 d2 : Char), x = String.mk (p ++ ['-', d1, d2]) ∧ p.length = 7 ∧
      d1.isDigit = true ∧ d2.isDigit = true ∧ 1 ≤ digitsValue [d1, d2] ∧
      digitsValue [d1, d2] ≤ 31 := by
  unfold isIsoDate at h
  split at h
  · rename_i y1 y2 y3 y4 c1 m1 m2 c2 d1 d2 hx
    simp only [Bool.and_eq_true, decide_eq_true_eq, beq_iff_eq] at h
    obtain ⟨⟨⟨⟨⟨⟨⟨⟨⟨⟨⟨⟨⟨_, _⟩, _⟩, _⟩, _⟩, _⟩, _⟩, hc2⟩, hd1⟩, hd2⟩, _⟩, _⟩, hlo⟩, hhi⟩ := h
    refine ⟨[y1, y2, y3, y4, c1, m1, m2], d1, d2, ?_, rfl, hd1, hd2, hlo, hhi⟩
    subst hc2
    cases x
    simp only at hx
    rw [hx]
    rfl
  · exact absurd h (by simp)

/-- C28: for every month text `M` of seven characters and every well-formed date `d`
(`YYYY-MM-DD`), `d` lies between `M-01` and `M-31` in the text order exactly when the first
seven characters of `d` are `M`; hence the attendance query of the student-detail screen
returns exactly the student's records of the current month. -/
theorem studentDetail_range_iff_month (M d : String) (hM : M.length = 7)
    (hd : isIsoDate d = true) :
    ((startDate M ≤ d ∧ d ≤ endDate M) ↔ isoMonth d = M) ∧
      ∀ (db : Db) (studentId : Int) (nowIso : String) (a : Attendance),
        isoMonth nowIso = M → a.date = d →
          (a ∈ loadStudentAttendance db studentId nowIso ↔
            a ∈ db.attendance ∧ a.student_id = studentId ∧
              isoMonth a.date = isoMonth nowIso) := by
  have key : (startDate M ≤ d ∧ d ≤ endDate M) ↔ isoMonth d = M := by
    obtain ⟨p, d1, d2, rfl, hp, hd1, hd2, hlo, hhi⟩ := isIsoDate_shape d hd
    obtain ⟨a, ha, rfl⟩ := digit_char_cases d1 hd1
    obtain ⟨b, hb, rfl⟩ := digit_char_cases d2 hd2
    have hta := (digit_char_props a ha).1
    have htb := (digit_char_props b hb).1
    rw [digitsValue_two, hta, htb] at hlo hhi
    obtain ⟨hday1, hday2⟩ := day_suffix_bounds a ha b hb (by omega) (by omega)
    have hMl : M.data.length = p.length := by rw [hp]; exact hM
    have hs : (startDate M).toList = M.data ++ ['-', '0', '1'] := by
      simp [startDate, String.toList]
    have he : (endDate M).toList = M.data ++ ['-', '3', '1'] := by
      simp [endDate, String.toList]
    have hmonth : isoMonth (String.mk (p ++ ['-', Char.ofNat (48 + a), Char.ofNat (48 + b)])) =
        String.mk p := by
      unfold isoMonth
      simp [List.take_append_of_le_length, hp]
    rw [String.le_iff_toList_le, String.le_iff_toList_le, hs, he, hmonth]
    show (M.data ++ ['-', '0', '1'] ≤ p ++ ['-', Char.ofNat (48 + a), Char.ofNat (48 + b)] ∧
      p ++ ['-', Char.ofNat (48 + a), Char.ofNat (48 + b)] ≤ M.data ++ ['-', '3', '1']) ↔ _
    rw [append_le_append_of_length _ _ _ _ hMl, append_le_append_of_length _ _ _ _ hMl.symm]
    constructor
    · rintro ⟨⟨h1, _⟩, h2, _⟩
      have hpe : p = M.data := le_antisymm h2 h1
      rw [hpe]
    · intro h
      have hpe : p = M.data := by rw [← h]
      subst hpe
      exact ⟨⟨le_refl _, fun _ => hday1⟩, le_refl _, fun _ => hday2⟩
  refine ⟨key, ?_⟩
  intro db studentId nowIso a hnow hdate
  unfold loadStudentAttendance getAttendanceByStudent
  rw [(List.perm_insertionSort _ _).mem_iff, List.mem_filter, hnow, hdate]
  simp only [Bool.and_eq_true, beq_iff_eq, decide_eq_true_eq]
  constructor
  · rintro ⟨hmem, hsid, hr⟩
    exact ⟨hmem, hsid, key.1 hr⟩
  · rintro ⟨hmem, hsid, hm⟩
    exact ⟨hmem, hsid, key.2 hm⟩

theorem studentDetail_range_iff_month_witness :
    ((startDate "2024-02" ≤ "2024-02-29" ∧ "2024-02-29" ≤ endDate "2024-02") ↔
        isoMonth "2024-02-29" = "2024-02") ∧
      ∀ (db : Db) (studentId : Int) (nowIso : String) (a : Attendance),
        isoMonth nowIso = "2024-02" → a.date = "2024-02-29" →
          (a ∈ loadStudentAttendance db studentId nowIso ↔
            a ∈ db.attendance ∧ a.student_id = studentId ∧
              isoMonth a.date = isoMonth nowIso) :=
  studentDetail_range_iff_month "2024-02" "2024-02-29" (by decide) (by decide)

/-! ## The monthly summary and the month list of the payments screen -/

theorem digit_not_separator :
    ∀ k < 10, isSqlSpace (Char.ofNat (48 + k)) = false ∧ Char.ofNat (48 + k) ≠ 'T' := by
  decide

/-- On a timestamp `YYYY-MM-DD HH:MM:SS` (a day that exists in the month, hour up to 23)
`strftime('%Y-%m', x)` is the first seven characters of the text. -/
theorem strftimeYm_timestamp_chars (y1 y2 y3 y4 m1 m2 d1 d2 h1 h2 n1 n2 s1 s2 : Char)
    (hy1 : y1.isDigit = true) (hy2 : y2.isDigit = true) (hy3 : y3.isDigit = true)
    (hy4 : y4.isDigit = true) (hm1 : m1.isDigit = true) (hm2 : m2.isDigit = true)
    (hd1 : d1.isDigit = true) (hd2 : d2.isDigit = true)
    (hh1 : h1.isDigit = true) (hh2 : h2.isDigit = true)
    (hn1 : n1.isDigit = true) (hn2 : n2.isDigit = true)
    (hs1 : s1.isDigit = true) (hs2 : s2.isDigit = true)
    (hmlo : 1 ≤ digitsValue [m1, m2]) (hmhi : digitsValue [m1, m2] ≤ 12)
    (hdlo : 1 ≤ digitsValue [d1, d2])
    (hdhi : digitsValue [d1, d2] ≤
      daysInMonth (digitsValue [y1, y2, y3, y4] : Nat) (digitsValue [m1, m2]))
    (hh : digitsValue [h1, h2] ≤ 23) (hmin : digitsValue [n1, n2] ≤ 59)
    (hsec : digitsValue [s1, s2] ≤ 59) :
    strftimeYm (String.mk [y1, y2, y3, y4, '-', m1, m2, '-', d1, d2, ' ', h1, h2, ':', n1, n2,
      ':', s1, s2]) = some (String.mk [y1, y2, y3, y4, '-', m1, m2]) := by
  have hdim : daysInMonth (digitsValue [y1, y2, y3, y4] : Nat) (digitsValue [m1, m2]) ≤ 31 := by
    unfold daysInMonth
    split
    · split <;> omega
    · split <;> omega
  have hd31 : digitsValue [d1, d2] ≤ 31 := le_trans hdhi hdim
  have hsp : isSqlSpace ' ' = true := by decide
  obtain ⟨k, hk, hk1⟩ := digit_char_cases h1 hh1
  have hsep : isSqlSpace h1 = false ∧ h1 ≠ 'T' := by
    rw [hk1]
    exact digit_not_separator k hk
  have hrest : ([' ', h1, h2, ':', n1, n2, ':', s1, s2].dropWhile
      (fun c => isSqlSpace c || decide (c = 'T'))) = [h1, h2, ':', n1, n2, ':', s1, s2] := by
    simp [List.dropWhile, hsp, hsep.1, hsep.2]
  have htime : parseHhMmSs [h1, h2, ':', n1, n2, ':', s1, s2] =
      some (((digitsValue [h1, h2] * 60 + digitsValue [n1, n2] : Nat) : Int) - 0) := by
    unfold parseHhMmSs
    simp only [getDigits_two 0 24 h1 h2 _ hh1 hh2 (Nat.zero_le _) (by omega),
      getDigits_two 0 59 n1 n2 _ hn1 hn2 (Nat.zero_le _) hmin,
      getDigits_two 0 59 s1 s2 _ hs1 hs2 (Nat.zero_le _) hsec]
    simp [parseTimezone]
  unfold strftimeYm
  simp only [getDigits_four y1 y2 y3 y4 _ hy1 hy2 hy3 hy4,
    getDigits_two 1 12 m1 m2 _ hm1 hm2 hmlo hmhi,
    getDigits_two 1 31 d1 d2 _ hd1 hd2 hdlo hd31, hrest, htime]
  have hdiv : (((digitsValue [h1, h2] * 60 + digitsValue [n1, n2] : Nat) : Int) - 0) / 1440 = 0 := by
    omega
  have hnorm : normalizeYm (digitsValue [y1, y2, y3, y4] : Nat) (digitsValue [m1, m2])
      ((digitsValue [d1, d2] : Nat) +
        (((digitsValue [h1, h2] * 60 + digitsValue [n1, n2] : Nat) : Int) - 0) / 1440) =
      (((digitsValue [y1, y2, y3, y4] : Nat) : Int), digitsValue [m1, m2]) := by
    rw [hdiv]
    unfold normalizeYm
    have h1 : ¬ (((digitsValue [d1, d2] : Nat) : Int) + 0 < 1) := by omega
    have h2 : ¬ ((daysInMonth (digitsValue [y1, y2, y3, y4] : Nat) (digitsValue [m1, m2]) : Int) <
        ((digitsValue [d1, d2] : Nat) : Int) + 0) := by omega
    rw [if_neg h1, if_neg h2]
  have hy : ¬ ((9999 : Int) < (digitsValue [y1, y2, y3, y4] : Nat)) := by
    obtain ⟨ha1, ha2⟩ := isDigit_bounds y1 hy1
    obtain ⟨hb1, hb2⟩ := isDigit_bounds y2 hy2
    obtain ⟨hc1, hc2⟩ := isDigit_bounds y3 hy3
    obtain ⟨hd1, hd2⟩ := isDigit_bounds y4 hy4
    rw [digitsValue_four]
    omega
  simp only [List.isEmpty_cons, Bool.false_eq_true, if_false, hnorm, hy,
    padYear_digits y1 y2 y3 y4 hy1 hy2 hy3 hy4, pad2_digits m1 m2 hm1 hm2]
  rfl

theorem strftimeYm_timestamp (x : String) (h : isSqlTimestamp x = true) :
    strftimeYm x = some (isoMonth x) := by
  unfold isSqlTimestamp at h
  split at h
  · rename_i y1 y2 y3 y4 c1 m1 m2 c2 d1 d2 c3 h1 h2 c4 n1 n2 c5 s1 s2 hx
    simp only [Bool.and_eq_true, decide_eq_true_eq, beq_iff_eq] at h
    obtain ⟨⟨⟨⟨⟨⟨⟨⟨⟨⟨⟨⟨⟨⟨⟨⟨⟨⟨⟨⟨⟨⟨⟨⟨⟨hy1, hy2⟩, hy3⟩, hy4⟩, hm1⟩, hm2⟩, hd1⟩, hd2⟩, hh1⟩, hh2⟩, hn1⟩,
      hn2⟩, hs1⟩, hs2⟩, hc1⟩, hc2⟩, hc3⟩, hc4⟩, hc5⟩, hmlo⟩, hmhi⟩, hdlo⟩, hdhi⟩, hh⟩, hmin⟩,
      hsec⟩ := h
    subst hc1 hc2 hc3 hc4 hc5
    have hxe : x = String.mk [y1, y2, y3, y4, '-', m1, m2, '-', d1, d2, ' ', h1, h2, ':', n1,
        n2, ':', s1, s2] := by
      cases x
      simp only at hx
      rw [hx]
    rw [hxe, strftimeYm_timestamp_chars y1 y2 y3 y4 m1 m2 d1 d2 h1 h2 n1 n2 s1 s2 hy1 hy2 hy3
      hy4 hm1 hm2 hd1 hd2 hh1 hh2 hn1 hn2 hs1 hs2 hmlo hmhi hdlo hdhi hh hmin hsec]
    rfl
  · exact absurd h (by simp)

/-- C29: when every `payment_date` is a timestamp `YYYY-MM-DD HH:MM:SS`, the count that
`getPaymentSummary(c, M)` returns equals the number of payments with status `completed`
in the month list of the payments screen, which keeps the rows of `getPaymentsByCoach(c)`
whose `payment_date.slice(0, 7)` is `M`. -/
theorem paymentSummary_count_eq_monthList (db : Db) (c : Int) (M : String)
    (hts : ∀ p ∈ db.payments, isSqlTimestamp p.payment_date = true) :
    (getPaymentSummary db c M).count =
      ((monthlyPayments (getPaymentsByCoach db c) M).filter
        (fun r => r.payment.status == some "completed")).length := by
  rw [getPaymentSummary_eq]
  show (paymentSummaryRows db c M).length = _
  unfold monthlyPayments getPaymentsByCoach paymentSummaryRows
  rw [List.filter_filter, List.filter_map, List.length_map,
    ((List.perm_insertionSort _ _).filter _).length_eq, List.filter_filter]
  congr 1
  apply List.filter_congr
  rintro ⟨p, s⟩ hmem
  have hp : p ∈ db.payments := ((mem_join db.students (fun q : Payment => q.student_id)
    db.payments p s).1 hmem).1
  have hstr := strftimeYm_timestamp p.payment_date (hts p hp)
  simp only [Function.comp_apply, hstr]
  cases hA : (s.coach_id == c) <;> cases hB : (isoMonth p.payment_date == M) <;>
    cases hC : (p.status == some "completed") <;> simp_all

theorem paymentSummary_count_eq_monthList_witness :
    (∀ p ∈ dbMarch.payments, isSqlTimestamp p.payment_date = true) ∧
      (getPaymentSummary dbMarch 1 "2024-03").count =
        ((monthlyPayments (getPaymentsByCoach dbMarch 1) "2024-03").filter
          (fun r => r.payment.status == some "completed")).length :=
  ⟨by decide, paymentSummary_count_eq_monthList dbMarch 1 "2024-03" (by decide)⟩

end TrainerApp
